import Mathlib

/-!
# Verification of the species enrichment resolver

Shallow embedding of the Wikipedia/Wikidata enrichment resolver implemented in
`src/app/species/species-card.tsx` (the `AddSpeciesDialog` component): the
population text extractor `parsePopulation`, the Wikidata lookup helpers
`wikidataQidByPageId` / `wikidataQidByTitle` / `searchWikidataQid` /
`fetchFromWikidata`, and the orchestrator `handleWikipediaSearch`.

Modelling conventions:
* JavaScript regular expressions are embedded by a small backtracking matcher
  (`RE` / `mre`) with JavaScript semantics: leftmost match, ordered
  alternation, greedy and lazy repetition, numbered capture groups.
  Case-insensitive matching is modelled by lowercasing the subject text
  (ASCII range; the letters occurring in the patterns are all ASCII).
* JavaScript numbers are modelled exactly by decimals `num / 10 ^ den10`
  (`JSNum`); `Math.round` is rounding half up and `Number.parseFloat` is
  modelled by `jsParseFloat`.  The values flowing through the claims stay
  well inside the range where IEEE 754 doubles are exact integers/decimals,
  so the exact model agrees with the JavaScript float semantics there.
* `fetch` outcomes are modelled by `FetchOutcome`: a rejected promise (or a
  throwing `res.json()`) is `.thrown`, an HTTP response is `.resp ok body`
  with its parsed JSON body.  The upstream is a deterministic `Env` of
  response functions; one resolution run makes strictly sequential calls.
* `form.setValue` side effects are modelled by a `FormState` record and an
  `Effect` trace listing every field write and network call in order.
-/

/-! ## Characters and character classes -/

/-- ASCII decimal digit, the JavaScript `\d` class. -/
def isDigitCh (c : Char) : Bool :=
  48 ≤ c.toNat && c.toNat ≤ 57

/-- JavaScript `\D`: any character that is not an ASCII digit. -/
def isNonDigitCh (c : Char) : Bool :=
  !(isDigitCh c)

/-- JavaScript `\s` (ASCII part): space, tab, newline, carriage return,
vertical tab, form feed. -/
def isSpaceJS (c : Char) : Bool :=
  c = ' ' || c = '\t' || c = '\n' || c = '\r' || c.toNat = 11 || c.toNat = 12

/-- The class `[\d,]` used by the number-capturing group. -/
def isDigitCommaCh (c : Char) : Bool :=
  isDigitCh c || c = ','

/-- ASCII lowercasing of one character (the effect of a case-insensitive
match on the ASCII letters appearing in the patterns). -/
def lowerCh (c : Char) : Char :=
  match c with
  | 'A' => 'a' | 'B' => 'b' | 'C' => 'c' | 'D' => 'd' | 'E' => 'e'
  | 'F' => 'f' | 'G' => 'g' | 'H' => 'h' | 'I' => 'i' | 'J' => 'j'
  | 'K' => 'k' | 'L' => 'l' | 'M' => 'm' | 'N' => 'n' | 'O' => 'o'
  | 'P' => 'p' | 'Q' => 'q' | 'R' => 'r' | 'S' => 's' | 'T' => 't'
  | 'U' => 'u' | 'V' => 'v' | 'W' => 'w' | 'X' => 'x' | 'Y' => 'y'
  | 'Z' => 'z' | _ => c

/-- ASCII lowercasing of a character list. -/
def lowerAscii (cs : List Char) : List Char :=
  cs.map lowerCh

/-- JavaScript `String.prototype.trim` (ASCII whitespace): drop leading
and trailing whitespace characters. -/
def trimList (cs : List Char) : List Char :=
  ((cs.dropWhile isSpaceJS).reverse.dropWhile isSpaceJS).reverse

/-- `s.trim()` on strings. -/
def jsTrim (s : String) : String :=
  ⟨trimList s.data⟩

/-! ## A backtracking regular-expression matcher with JavaScript semantics -/

/-- Regular expression abstract syntax.  Repetition is restricted to
single-character classes, which covers every quantifier in the source
patterns (`\D{0,25}?`, `\D{0,10}`, `[\d,]+`, `\d+`, `\s*`, `\s+`). -/
inductive RE where
  /-- A literal character sequence. -/
  | str : List Char → RE
  /-- `cls p lo hi lzy`: between `lo` and `hi` (`none` = unbounded)
  repetitions of a character satisfying `p`; `lzy` selects lazy matching. -/
  | cls : (Char → Bool) → Nat → Option Nat → Bool → RE
  /-- Ordered alternation: the left branch is preferred. -/
  | alt2 : RE → RE → RE
  /-- Greedy option `r?`: taking `r` is preferred over skipping it. -/
  | opt : RE → RE
  /-- Numbered capture group. -/
  | grp : Nat → RE → RE
  /-- Concatenation. -/
  | cat : RE → RE → RE
  /-- The empty regular expression. -/
  | eps : RE

/-- Capture environment: group index paired with the captured characters.
The most recently completed binding for a group comes first. -/
abbrev Caps := List (Nat × List Char)

/-- Match a literal character sequence against a prefix of the input,
returning the remaining input. -/
def stripPrefixCh : List Char → List Char → Option (List Char)
  | [], cs => some cs
  | _ :: _, [] => none
  | p :: ps, c :: cs => if p = c then stripPrefixCh ps cs else none

/-- Length of the longest prefix whose characters satisfy `p`. -/
def countWhile (p : Char → Bool) : List Char → Nat
  | [] => 0
  | c :: cs => if p c then countWhile p cs + 1 else 0

/-- The repetition counts a quantifier may consume, in the order a
JavaScript engine tries them: ascending for lazy, descending for greedy. -/
def clsCounts (lo hi : Nat) (lzy : Bool) : List Nat :=
  if hi < lo then []
  else
    let ns := (List.range (hi - lo + 1)).map (· + lo)
    if lzy then ns else ns.reverse

/-- Try each repetition count in order, resuming the continuation on the
rest of the input; the first count whose continuation succeeds wins. -/
def tryCounts (cs : List Char) (caps : Caps)
    (k : List Char → Caps → Option Caps) : List Nat → Option Caps
  | [] => none
  | n :: ns =>
    match k (cs.drop n) caps with
    | some r => some r
    | none => tryCounts cs caps k ns

/-- The backtracking matcher.  `mre r cs caps k` matches `r` against a
prefix of `cs` and passes the remaining input and extended captures to the
continuation `k`; alternatives are explored in JavaScript priority order. -/
def mre : RE → List Char → Caps → (List Char → Caps → Option Caps) → Option Caps
  | .str s, cs, caps, k =>
    match stripPrefixCh s cs with
    | some rest => k rest caps
    | none => none
  | .cls p lo hi lzy, cs, caps, k =>
    let l := countWhile p cs
    let bound := match hi with
      | none => l
      | some m => Nat.min m l
    tryCounts cs caps k (clsCounts lo bound lzy)
  | .alt2 r1 r2, cs, caps, k =>
    match mre r1 cs caps k with
    | some res => some res
    | none => mre r2 cs caps k
  | .opt r, cs, caps, k =>
    match mre r cs caps k with
    | some res => some res
    | none => k cs caps
  | .grp i r, cs, caps, k =>
    mre r cs caps (fun rest caps2 =>
      k rest ((i, cs.take (cs.length - rest.length)) :: caps2))
  | .cat r1 r2, cs, caps, k =>
    mre r1 cs caps (fun rest caps2 => mre r2 rest caps2 k)
  | .eps, cs, caps, k => k cs caps

/-- Leftmost match: try the pattern at every start position, earliest
first, and return the captures of the first successful match. -/
def reFirstMatch (r : RE) : List Char → Option Caps
  | [] => mre r [] [] (fun _ caps => some caps)
  | c :: cs =>
    match mre r (c :: cs) [] (fun _ caps => some caps) with
    | some caps => some caps
    | none => reFirstMatch r cs

/-- Characters captured by a group, if the group participated in the match. -/
def lookupCap (caps : Caps) (i : Nat) : Option (List Char) :=
  match caps with
  | [] => none
  | (j, l) :: rest => if j = i then some l else lookupCap rest i

/-- Ordered alternation of a list of alternatives (left to right). -/
def alts : List RE → RE
  | [] => RE.cls (fun _ => false) 1 (some 1) false
  | [r] => r
  | r :: rs => RE.alt2 r (alts rs)

/-- Concatenation of a list of regular expressions. -/
def cats : List RE → RE
  | [] => RE.eps
  | [r] => r
  | r :: rs => RE.cat r (cats rs)

/-- Literal from a string (written lowercase, matching lowercased input). -/
def sl (s : String) : RE :=
  RE.str s.data

/-! ## JavaScript numeric primitives -/

/-- Numeric value of a digit character. -/
def digitVal (c : Char) : Nat :=
  c.toNat - 48

/-- Value of a digit sequence read in base 10. -/
def digitsToNat (cs : List Char) : Nat :=
  cs.foldl (fun a c => 10 * a + digitVal c) 0

/-- Exponent part of a float literal: `e` / `E`, optional sign, digits.
As in `parseFloat`, an exponent marker without digits is ignored. -/
def readExp : List Char → Int
  | [] => 0
  | e :: rest =>
    if e = 'e' ∨ e = 'E' then
      match rest with
      | '+' :: ds =>
        if (ds.takeWhile isDigitCh).isEmpty then 0
        else (digitsToNat (ds.takeWhile isDigitCh) : Int)
      | '-' :: ds =>
        if (ds.takeWhile isDigitCh).isEmpty then 0
        else -(digitsToNat (ds.takeWhile isDigitCh) : Int)
      | ds =>
        if (ds.takeWhile isDigitCh).isEmpty then 0
        else (digitsToNat (ds.takeWhile isDigitCh) : Int)
    else 0

/-- Case-insensitive literal prefix test (for `parseFloat`'s `Infinity`). -/
def startsWithCI : List Char → List Char → Bool
  | [], _ => true
  | _ :: _, [] => false
  | p :: ps, c :: cs => lowerCh c = p && startsWithCI ps cs

/-- An exact decimal number `num / 10 ^ den10`.  JavaScript numbers are
modelled exactly (no floating-point rounding); kept unnormalized so every
operation is plain integer arithmetic. -/
structure JSNum where
  num : Int
  den10 : Nat
deriving DecidableEq

/-- The rational value denoted by a `JSNum`. -/
def JSNum.toRat (a : JSNum) : ℚ :=
  (a.num : ℚ) / (10 : ℚ) ^ a.den10

/-- Exact product of two decimals. -/
def JSNum.mul (a b : JSNum) : JSNum :=
  ⟨a.num * b.num, a.den10 + b.den10⟩

/-- The comparison `x > 0` on the denoted value (the denominator is a
positive power of ten, so the sign is the sign of the numerator). -/
def JSNum.isPos (a : JSNum) : Bool :=
  0 < a.num

/-- The sign of a float literal: `-1` for a leading minus, else `1`. -/
def jsSign (cs : List Char) : Int :=
  match cs with
  | '-' :: _ => -1
  | _ => 1

/-- Drop one leading sign character. -/
def jsSignStrip (cs : List Char) : List Char :=
  match cs with
  | '+' :: r => r
  | '-' :: r => r
  | _ => cs

/-- The fractional digits after a leading decimal point, when present. -/
def jsFracPart (cs2 : List Char) : List Char :=
  match cs2 with
  | '.' :: r => r.takeWhile isDigitCh
  | _ => []

/-- What remains after the mantissa (where the exponent may start). -/
def jsAfterFrac (cs2 : List Char) : List Char :=
  match cs2 with
  | '.' :: r => r.dropWhile isDigitCh
  | _ => cs2

/-- `Number.parseFloat`, modelled exactly.  `none` stands for a non-finite
result (`NaN`, or an `Infinity` literal); every call site guards the result
with `Number.isFinite`, so the two collapse. -/
def jsParseFloat (cs0 : List Char) : Option JSNum :=
  let cs1 := cs0.dropWhile isSpaceJS
  let sgn : Int := jsSign cs1
  let cs := jsSignStrip cs1
  if startsWithCI ("infinity".data) cs then none
  else
    let ip := cs.takeWhile isDigitCh
    let cs2 := cs.dropWhile isDigitCh
    let fp := jsFracPart cs2
    let cs3 := jsAfterFrac cs2
    if ip.isEmpty && fp.isEmpty then none
    else
      let mant : Int := (digitsToNat ip : Int) * (10 : Int) ^ fp.length + (digitsToNat fp : Int)
      let ex : Int := readExp cs3
      if 0 ≤ ex then some ⟨sgn * mant * (10 : Int) ^ ex.toNat, fp.length⟩
      else some ⟨sgn * mant, fp.length + ex.natAbs⟩

/-- `Math.round`: round half toward positive infinity.  For a value
`n / d` with `d = 10 ^ p > 0` this is `⌊(2 * n + d) / (2 * d)⌋`. -/
def jsRound (a : JSNum) : Int :=
  Int.fdiv (2 * a.num + (10 : Int) ^ a.den10) (2 * (10 : Int) ^ a.den10)

/-! ## The Numeric Text Extractor (`parsePopulation`) -/

/-- The multiplier table `units`; an unrecognized (or absent) suffix maps
to 1, as `units[unit] ?? 1` does. -/
def unitFactor (u : List Char) : JSNum :=
  if u = "thousand".data ∨ u = "k".data then ⟨1000, 0⟩
  else if u = "million".data ∨ u = "m".data then ⟨1000000, 0⟩
  else if u = "billion".data ∨ u = "bn".data then ⟨1000000000, 0⟩
  else ⟨1, 0⟩

/-- Capture group 1 of both patterns: `([\d,]+(?:\.\d+)?)`. -/
def numberGroup : RE :=
  RE.grp 1 (RE.cat (RE.cls isDigitCommaCh 1 none false)
    (RE.opt (RE.cat (sl ".") (RE.cls isDigitCh 1 none false))))

/-- Capture group 2 of both patterns: `(million|billion|thousand|m|bn|k)?`. -/
def unitGroup : RE :=
  RE.opt (RE.grp 2 (alts [sl "million", sl "billion", sl "thousand",
    sl "m", sl "bn", sl "k"]))

/-- First pattern of `parsePopulation` (the generic one):
`/(?:population|individuals?|remain(?:ing)?|left|numbers?)\D{0,25}?(?:about|around|approximately|approx\.?|roughly|some|nearly|over|more than|at least|fewer than|less than|~)?\s*([\d,]+(?:\.\d+)?)\s*(million|billion|thousand|m|bn|k)?/i`. -/
def pattern1 : RE :=
  cats [
    alts [sl "population",
      RE.cat (sl "individual") (RE.opt (sl "s")),
      RE.cat (sl "remain") (RE.opt (sl "ing")),
      sl "left",
      RE.cat (sl "number") (RE.opt (sl "s"))],
    RE.cls isNonDigitCh 0 (some 25) true,
    RE.opt (alts [sl "about", sl "around", sl "approximately",
      RE.cat (sl "approx") (RE.opt (sl ".")), sl "roughly", sl "some",
      sl "nearly", sl "over", sl "more than", sl "at least",
      sl "fewer than", sl "less than", sl "~"]),
    RE.cls isSpaceJS 0 none false,
    numberGroup,
    RE.cls isSpaceJS 0 none false,
    unitGroup]

/-- Second pattern of `parsePopulation` (the explicit one):
`/estimated(?:\s+global)?\s+population\D{0,10}([\d,]+(?:\.\d+)?)\s*(million|billion|thousand|m|bn|k)?/i`. -/
def pattern2 : RE :=
  cats [
    sl "estimated",
    RE.opt (RE.cat (RE.cls isSpaceJS 1 none false) (sl "global")),
    RE.cls isSpaceJS 1 none false,
    sl "population",
    RE.cls isNonDigitCh 0 (some 10) false,
    numberGroup,
    RE.cls isSpaceJS 0 none false,
    unitGroup]

/-- One iteration of the `for (const re of patterns)` loop body: `none`
plays the role of `continue` (no match, empty capture, non-finite parse, or
a non-positive rounded result). -/
def runPattern (re : RE) (cs : List Char) : Option Int :=
  match reFirstMatch re cs with
  | none => none
  | some caps =>
    match lookupCap caps 1 with
    | none => none
    | some g1 =>
      if g1.isEmpty then none
      else
        let numRaw := g1.filter (fun c => c ≠ ',')
        let unit := (lookupCap caps 2).getD []
        match jsParseFloat numRaw with
        | none => none
        | some base =>
          let n := jsRound (base.mul (unitFactor unit))
          if 0 < n then some n else none

/-- The pattern loop: patterns are tried in list order and the first one
whose body returns wins. -/
def parsePopulationList : List RE → List Char → Option Int
  | [], _ => none
  | re :: res, cs =>
    match runPattern re cs with
    | some n => some n
    | none => parsePopulationList res cs

/-- The source's pattern array, in source order: the generic pattern comes
first, the explicit `estimated … population` pattern second. -/
def patterns : List RE :=
  [pattern1, pattern2]

/-- `parsePopulation(text)`: `undefined` or the empty string return `null`
(the `if (!text)` guard); otherwise the patterns are tried in order on the
(case-folded) text. -/
def parsePopulation (text : Option String) : Option Int :=
  match text with
  | none => none
  | some t => if t = "" then none else parsePopulationList patterns (lowerAscii t.data)

/-! ## Upstream response shapes (the TypeScript interfaces) -/

/-- `WikipediaSearchResult`: one full-text search hit. -/
structure WikipediaSearchResult where
  title : String
  pageid : Option Nat
deriving DecidableEq

/-- The `query` object of the search response. -/
structure WPSearchQuery where
  search : Option (List WikipediaSearchResult)
deriving DecidableEq

/-- `WikipediaSearchResponse`. -/
structure WikipediaSearchResponse where
  query : Option WPSearchQuery
deriving DecidableEq

/-- The `thumbnail` object of a summary response. -/
structure WPThumbnail where
  source : String
deriving DecidableEq

/-- `WikipediaSummaryResponse`. -/
structure WikipediaSummaryResponse where
  title : Option String
  extract : Option String
  thumbnail : Option WPThumbnail
  type : Option String
deriving DecidableEq

/-- `pageprops` of a MediaWiki page record. -/
structure MWPageProps where
  wikibase_item : Option String
deriving DecidableEq

/-- `MWQueryPage`. -/
structure MWQueryPage where
  pageprops : Option MWPageProps
deriving DecidableEq

/-- The `query` object of a MediaWiki pageprops response; the record of
pages is modelled as an association list in object-key iteration order. -/
structure MWQueryObj where
  pages : Option (List (String × MWQueryPage))
deriving DecidableEq

/-- `MWQueryResp`. -/
structure MWQueryResp where
  query : Option MWQueryObj
deriving DecidableEq

/-- The `unknown` JSON value sitting at `mainsnak.datavalue.value`: the
code only distinguishes strings (`typeof sciVal === "string"`) and objects
read through the `WDQuantityValue` cast (an optional `amount` string). -/
inductive WDValue where
  | str : String → WDValue
  | quantity : Option String → WDValue
  | other : WDValue
deriving DecidableEq

/-- `datavalue` of a claim snak. -/
structure WDDataValue where
  value : Option WDValue
deriving DecidableEq

/-- `WDClaimSnak`. -/
structure WDClaimSnak where
  datavalue : Option WDDataValue
deriving DecidableEq

/-- `WDClaim`. -/
structure WDClaim where
  mainsnak : Option WDClaimSnak
deriving DecidableEq

/-- `WikidataEntity`: claims keyed by property id, in object-key order. -/
structure WikidataEntity where
  claims : Option (List (String × List WDClaim))
deriving DecidableEq

/-- `WikidataResp`. -/
structure WikidataResp where
  entities : Option (List (String × WikidataEntity))
deriving DecidableEq

/-- `WikidataSearchEntity`. -/
structure WikidataSearchEntity where
  id : Option String
deriving DecidableEq

/-- `WikidataSearchResp`. -/
structure WikidataSearchResp where
  search : Option (List WikidataSearchEntity)
deriving DecidableEq

/-! ## The network model -/

/-- Outcome of one `fetch`: `.thrown` models a rejected promise (network
error) or a throwing `res.json()`; `.resp ok body` models an HTTP response
with its `res.ok` flag and parsed JSON body. -/
inductive FetchOutcome (α : Type) where
  | thrown : FetchOutcome α
  | resp : Bool → α → FetchOutcome α
deriving DecidableEq

deriving instance DecidableEq for Except

/-- The deterministic upstream: one response function per endpoint.
Repeating a call with the same argument within a run yields the same
outcome (the spec's unchanged-upstream assumption). -/
structure Env where
  searchResp : String → FetchOutcome WikipediaSearchResponse
  summaryResp : String → FetchOutcome WikipediaSummaryResponse
  qidByPageIdResp : Nat → FetchOutcome MWQueryResp
  qidByTitleResp : String → FetchOutcome MWQueryResp
  wdSearchResp : String → FetchOutcome WikidataSearchResp
  entityDataResp : String → FetchOutcome WikidataResp

/-! ## Source Client: Structured Knowledge Lookup -/

/-- The `for (const key of Object.keys(pages))` loop: return the first
truthy `pageprops.wikibase_item`. -/
def firstQidInPages : List (String × MWQueryPage) → Option String
  | [] => none
  | (_, p) :: rest =>
    match p.pageprops.bind MWPageProps.wikibase_item with
    | some q => if q ≠ "" then some q else firstQidInPages rest
    | none => firstQidInPages rest

/-- `wikidataQidByPageId`: a non-success response yields `null`; a thrown
fetch propagates (`.error`). -/
def wikidataQidByPageId (env : Env) (pageid : Nat) : Except Unit (Option String) :=
  match env.qidByPageIdResp pageid with
  | .thrown => .error ()
  | .resp ok body =>
    if ok then .ok (firstQidInPages ((body.query.bind MWQueryObj.pages).getD []))
    else .ok none

/-- `wikidataQidByTitle`: same body shape, keyed by title. -/
def wikidataQidByTitle (env : Env) (title : String) : Except Unit (Option String) :=
  match env.qidByTitleResp title with
  | .thrown => .error ()
  | .resp ok body =>
    if ok then .ok (firstQidInPages ((body.query.bind MWQueryObj.pages).getD []))
    else .ok none

/-- `searchWikidataQid`: `json.search?.[0]?.id ?? null`. -/
def searchWikidataQid (env : Env) (q : String) : Except Unit (Option String) :=
  match env.wdSearchResp q with
  | .thrown => .error ()
  | .resp ok body =>
    if ok then .ok ((body.search.bind List.head?).bind WikidataSearchEntity.id)
    else .ok none

/-- `entity?.claims?.[prop]?.[0]?.mainsnak?.datavalue?.value`. -/
def claimFirstValue (entity : Option WikidataEntity) (prop : String) : Option WDValue :=
  match entity with
  | none => none
  | some e =>
    match e.claims with
    | none => none
    | some cl =>
      match cl.lookup prop with
      | none => none
      | some [] => none
      | some (c :: _) => (c.mainsnak.bind WDClaimSnak.datavalue).bind WDDataValue.value

/-- `amount.replace("+", "")`: `String.replace` with a string pattern
removes only the first occurrence, wherever it is. -/
def removeFirstPlus : List Char → List Char
  | [] => []
  | c :: cs => if c = '+' then cs else c :: removeFirstPlus cs

/-- The population branch of `fetchFromWikidata`: remove the first `+`,
parse as a float, accept only a finite value `> 0`, then round. -/
def extractPopulationAmount (amount : String) : Option Int :=
  match jsParseFloat (removeFirstPlus amount.data) with
  | none => none
  | some n => if n.isPos then some (jsRound n) else none

/-- `fetchFromWikidata(qid)`: returns `(scientific, population)`.  A
non-success response yields `(null, null)`; a thrown fetch propagates. -/
def fetchFromWikidata (env : Env) (qid : String) :
    Except Unit (Option String × Option Int) :=
  match env.entityDataResp qid with
  | .thrown => .error ()
  | .resp ok body =>
    if ok then
      let entity := (body.entities.getD []).lookup qid
      let scientific : Option String :=
        match claimFirstValue entity "P225" with
        | some (.str s) => if jsTrim s ≠ "" then some (jsTrim s) else none
        | _ => none
      let population : Option Int :=
        match claimFirstValue entity "P1082" with
        | some (.quantity (some amt)) =>
          if amt ≠ "" then extractPopulationAmount amt else none
        | _ => none
      .ok (scientific, population)
    else .ok (none, none)

/-! ## The Resolution Orchestrator (`handleWikipediaSearch`) -/

/-- The form fields the autofill flow touches, plus `kingdom` (which it
never touches).  `scientific_name` is a plain string whose empty value
plays the role of "absent", exactly as in the form. -/
structure FormState where
  scientific_name : String
  common_name : Option String
  kingdom : String
  total_population : Option Int
  image : Option String
  description : Option String
deriving DecidableEq

/-- One observable action of a run: a `form.setValue` write or an
outbound network call, in program order. -/
inductive Effect where
  | setScientific : String → Effect
  | setCommon : Option String → Effect
  | setDescription : Option String → Effect
  | setImage : Option String → Effect
  | setPopulation : Option Int → Effect
  | netSearch : String → Effect
  | netSummary : String → Effect
  | netQidByPageId : Nat → Effect
  | netQidByTitle : String → Effect
  | netWdSearch : String → Effect
  | netEntityData : String → Effect
deriving DecidableEq

/-- The toast the run ends with, i.e. the run's visible status. -/
inductive SearchStatus where
  | emptyQuery
  | noArticleFound
  | summaryUnavailable
  | success
  | searchError
deriving DecidableEq

/-- Result of a fallible phase: the value and the effect trace so far, or
a thrown exception together with the trace up to the throw. -/
inductive Step (α : Type) where
  | ok : α → List Effect → Step α
  | thrown : List Effect → Step α
deriving DecidableEq

/-- The effect trace carried by a `Step`. -/
def Step.log {α : Type} : Step α → List Effect
  | .ok _ log => log
  | .thrown log => log

/-- The five `form.setValue` resets issued at the start of each run, in
source order. -/
def resetEffects : List Effect :=
  [.setScientific "", .setCommon none, .setDescription none, .setImage none,
   .setPopulation none]

/-- Effect of the five resets on the form state. -/
def resetFields (st : FormState) : FormState :=
  { st with scientific_name := "", common_name := none, description := none,
            image := none, total_population := none }

/-- The `for (const r of results.slice(0, 5))` loop: fetch each hit's
summary, skip non-success responses and disambiguation summaries, accept
the first remaining one. -/
def pickSummary (env : Env) :
    List WikipediaSearchResult → List Effect →
    Step (Option (WikipediaSearchResult × WikipediaSummaryResponse))
  | [], log => .ok none log
  | r :: rs, log =>
    match env.summaryResp r.title with
    | .thrown => .thrown (log ++ [.netSummary r.title])
    | .resp ok s =>
      if ok then
        if s.type = some "disambiguation" then
          pickSummary env rs (log ++ [.netSummary r.title])
        else .ok (some (r, s)) (log ++ [.netSummary r.title])
      else pickSummary env rs (log ++ [.netSummary r.title])

/-- Truthiness of a `string | null` qid: `null` and `""` are falsy. -/
def qidTruthy : Option String → Bool
  | some s => s ≠ ""
  | none => false

/-- One `if (!qid) qid = await call()` step of the fallback chain: skipped
when a truthy qid is already at hand, otherwise the call's result replaces
the qid, and a thrown call aborts the chain. -/
def chainStep (prev : Step (Option String)) (eff : Effect)
    (call : Except Unit (Option String)) : Step (Option String) :=
  match prev with
  | .thrown log => .thrown log
  | .ok qid log =>
    if qidTruthy qid then .ok qid log
    else
      match call with
      | .error _ => .thrown (log ++ [eff])
      | .ok q2 => .ok q2 (log ++ [eff])

/-- First step of the chain: `if (picked.pageid != null) qid = await
wikidataQidByPageId(...)`, run only when a page id is known. -/
def qidStart (env : Env) (pageid : Option Nat) (log : List Effect) :
    Step (Option String) :=
  match pageid with
  | some p =>
    match wikidataQidByPageId env p with
    | .error _ => .thrown (log ++ [.netQidByPageId p])
    | .ok r => .ok r (log ++ [.netQidByPageId p])
  | none => .ok none log

/-- The four-step EntityId fallback chain: by page id (only when a page id
is known), by title, by entity search on the title, by entity search on
the original query. -/
def qidChain (env : Env) (pageid : Option Nat) (title q : String)
    (log : List Effect) : Step (Option String) :=
  chainStep (chainStep (chainStep (qidStart env pageid log)
      (.netQidByTitle title) (wikidataQidByTitle env title))
      (.netWdSearch title) (searchWikidataQid env title))
    (.netWdSearch q) (searchWikidataQid env q)

/-- `if (isBinomialTitle) …`: the title-shape heuristic regex
`/^[A-Z][a-z]+ [a-z]+$/` — one capitalized word, a space, one lowercase
word. -/
def isBinomialTitle (s : String) : Bool :=
  match s.data with
  | [] => false
  | c :: rest =>
    (65 ≤ c.toNat && c.toNat ≤ 90) &&
    (let w1 := rest.takeWhile (fun d => 97 ≤ d.toNat && d.toNat ≤ 122)
     let r2 := rest.dropWhile (fun d => 97 ≤ d.toNat && d.toNat ≤ 122)
     !w1.isEmpty &&
       match r2 with
       | ' ' :: r3 => !r3.isEmpty && r3.all (fun d => 97 ≤ d.toNat && d.toNat ≤ 122)
       | _ => false)

/-- The scientific-name write: the structured name if truthy, else the
title when it has binomial shape, else nothing. -/
def setSciPhase (st : FormState) (log : List Effect) (title : String)
    (sciFromWD : Option String) : FormState × List Effect :=
  match sciFromWD with
  | some s =>
    if s ≠ "" then ({ st with scientific_name := s }, log ++ [.setScientific s])
    else if isBinomialTitle title then
      ({ st with scientific_name := title }, log ++ [.setScientific title])
    else (st, log)
  | none =>
    if isBinomialTitle title then
      ({ st with scientific_name := title }, log ++ [.setScientific title])
    else (st, log)

/-- `popFromWD ?? popFromSummary ?? null`: the nullish-coalescing merge
(`0` is kept by `??`; only `null` falls through). -/
def mergedPop (popFromWD popFromSummary : Option Int) : Option Int :=
  match popFromWD with
  | some n => some n
  | none => popFromSummary

/-- `if (finalPop && Number.isFinite(finalPop))`: the write happens only
for a truthy (non-zero) merged value; on the exact-integer model
`Number.isFinite` is always true. -/
def setPopPhase (st : FormState) (log : List Effect) (finalPop : Option Int) :
    FormState × List Effect :=
  match finalPop with
  | some n =>
    if n ≠ 0 then
      ({ st with total_population := some n }, log ++ [.setPopulation (some n)])
    else (st, log)
  | none => (st, log)

/-- Tail of the run after the structured lookup: write the scientific
name, merge and write the population, report success. -/
def finish (st : FormState) (log : List Effect) (title : String)
    (sciFromWD : Option String) (popFromWD popFromSummary : Option Int) :
    FormState × List Effect × SearchStatus :=
  let p1 := setSciPhase st log title sciFromWD
  let p2 := setPopPhase p1.1 p1.2 (mergedPop popFromWD popFromSummary)
  (p2.1, p2.2, .success)

/-- `if (articleDescription) form.setValue("description", …)`. -/
def setDescriptionPhase (st : FormState) (log : List Effect)
    (summary : WikipediaSummaryResponse) : FormState × List Effect :=
  let articleDescription := summary.extract.getD ""
  if articleDescription ≠ "" then
    ({ st with description := some articleDescription },
     log ++ [.setDescription (some articleDescription)])
  else (st, log)

/-- `if (articleImage) form.setValue("image", …)`. -/
def setImagePhase (st : FormState) (log : List Effect)
    (summary : WikipediaSummaryResponse) : FormState × List Effect :=
  let articleImage := (summary.thumbnail.map WPThumbnail.source).getD ""
  if articleImage ≠ "" then
    ({ st with image := some articleImage }, log ++ [.setImage (some articleImage)])
  else (st, log)

/-- `if (articleCommon) form.setValue("common_name", …)`. -/
def setCommonPhase (st : FormState) (log : List Effect) (title : String) :
    FormState × List Effect :=
  if title ≠ "" then
    ({ st with common_name := some title }, log ++ [.setCommon (some title)])
  else (st, log)

/-- The three summary-derived writes: description and image when present
(truthy), common name from the chosen title (truthy). -/
def writeSummaryFields (st : FormState) (log : List Effect)
    (title : String) (summary : WikipediaSummaryResponse) :
    FormState × List Effect :=
  let d1 := setDescriptionPhase st log summary
  let d2 := setImagePhase d1.1 d1.2 summary
  setCommonPhase d2.1 d2.2 title

/-- Everything after a summary has been chosen: write description, image
and common name from the summary, run the qid chain, fetch structured
facts, then `finish`.  A throw anywhere surfaces as `searchError` with the
state as written so far. -/
def afterPick (env : Env) (q : String) (st : FormState) (log : List Effect)
    (picked : WikipediaSearchResult) (summary : WikipediaSummaryResponse) :
    FormState × List Effect × SearchStatus :=
  let d3 := writeSummaryFields st log picked.title summary
  match qidChain env picked.pageid picked.title q d3.2 with
  | .thrown log2 => (d3.1, log2, .searchError)
  | .ok qid log2 =>
    let popFromSummary := parsePopulation summary.extract
    match qid with
    | some qv =>
      if qv ≠ "" then
        match fetchFromWikidata env qv with
        | .error _ => (d3.1, log2 ++ [.netEntityData qv], .searchError)
        | .ok (sci, pop) =>
          finish d3.1 (log2 ++ [.netEntityData qv]) picked.title sci pop popFromSummary
      else finish d3.1 log2 picked.title none none popFromSummary
    | none => finish d3.1 log2 picked.title none none popFromSummary

/-- The whole `handleWikipediaSearch` run: trim and check the query, reset
the five fields, search (note: the search call's `res.ok` is never
checked), bail out on zero hits, choose a summary among the top five hits
with the first-hit fallback, then `afterPick`.  Returns the final form
state, the effect trace, and the closing status. -/
def handleWikipediaSearch (env : Env) (wikipediaQuery : String)
    (st0 : FormState) : FormState × List Effect × SearchStatus :=
  let q := jsTrim wikipediaQuery
  if q = "" then (st0, [], .emptyQuery)
  else
    let st1 := resetFields st0
    let log := resetEffects ++ [Effect.netSearch q]
    match env.searchResp q with
    | .thrown => (st1, log, .searchError)
    | .resp _ body =>
      match (body.query.bind WPSearchQuery.search).getD [] with
      | [] => (st1, log, .noArticleFound)
      | r0 :: rs =>
        match pickSummary env ((r0 :: rs).take 5) log with
        | .thrown log2 => (st1, log2, .searchError)
        | .ok (some (picked, summary)) log2 => afterPick env q st1 log2 picked summary
        | .ok none log2 =>
          match env.summaryResp r0.title with
          | .thrown => (st1, log2 ++ [.netSummary r0.title], .searchError)
          | .resp ok s =>
            if ok then afterPick env q st1 (log2 ++ [.netSummary r0.title]) r0 s
            else (st1, log2 ++ [.netSummary r0.title], .summaryUnavailable)

/-! ## Fixtures used by the verification statements -/

/-- The form's `defaultValues` state. -/
def emptyForm : FormState :=
  ⟨"", none, "Animalia", none, none, none⟩

/-- Strip one leading plus sign.  This definition follows the
specification's words ("strip any leading `+` sign from its numeric
string") and exists to be compared against the source's
`removeFirstPlus`. -/
def stripLeadingPlus : List Char → List Char
  | '+' :: r => r
  | cs => cs

/-- The amount extraction as the specification words it: leading `+`
stripped, parsed as a float, accepted only if finite and positive, then
rounded. -/
def extractPopulationAmountSpec (amount : String) : Option Int :=
  match jsParseFloat (stripLeadingPlus amount.data) with
  | none => none
  | some n => if n.isPos then some (jsRound n) else none

/-- An upstream whose search succeeds with zero hits (remaining endpoints
are never reached). -/
def envZeroHits : Env :=
  { searchResp := fun _ => .resp true ⟨some ⟨some []⟩⟩
    summaryResp := fun _ => .thrown
    qidByPageIdResp := fun _ => .thrown
    qidByTitleResp := fun _ => .thrown
    wdSearchResp := fun _ => .thrown
    entityDataResp := fun _ => .thrown }

/-- An upstream where the page-id lookup of the structured-knowledge chain
throws (network error) while everything before it succeeds. -/
def envThrowQid : Env :=
  { searchResp := fun _ => .resp true ⟨some ⟨some [⟨"Foo", some 7⟩]⟩⟩
    summaryResp := fun _ => .resp true ⟨some "Foo", none, none, none⟩
    qidByPageIdResp := fun _ => .thrown
    qidByTitleResp := fun _ => .resp true ⟨none⟩
    wdSearchResp := fun _ => .resp true ⟨none⟩
    entityDataResp := fun _ => .resp true ⟨none⟩ }

/-- An upstream where every summary fetch returns a non-success response
(so no hit, including the first-hit fallback, yields a usable summary). -/
def envNoSummary : Env :=
  { searchResp := fun _ => .resp true ⟨some ⟨some [⟨"A", some 1⟩, ⟨"B", none⟩]⟩⟩
    summaryResp := fun _ => .resp false ⟨none, none, none, none⟩
    qidByPageIdResp := fun _ => .thrown
    qidByTitleResp := fun _ => .thrown
    wdSearchResp := fun _ => .thrown
    entityDataResp := fun _ => .thrown }

/-- An upstream where every summary is a disambiguation page and the
structured-knowledge endpoints respond without success (found nothing). -/
def envAllDisambig : Env :=
  { searchResp := fun _ => .resp true ⟨some ⟨some [⟨"Alpha beta", some 1⟩, ⟨"B", none⟩]⟩⟩
    summaryResp := fun _ =>
      .resp true ⟨some "t", some "a list page", some ⟨"http://x/i.png"⟩, some "disambiguation"⟩
    qidByPageIdResp := fun _ => .resp false ⟨none⟩
    qidByTitleResp := fun _ => .resp false ⟨none⟩
    wdSearchResp := fun _ => .resp false ⟨none⟩
    entityDataResp := fun _ => .resp false ⟨none⟩ }

/-- An upstream whose structured-knowledge endpoints all answer with a
non-success response. -/
def envAbsorb : Env :=
  { searchResp := fun _ => .resp false ⟨none⟩
    summaryResp := fun _ => .resp false ⟨none, none, none, none⟩
    qidByPageIdResp := fun _ => .resp false ⟨none⟩
    qidByTitleResp := fun _ => .resp false ⟨none⟩
    wdSearchResp := fun _ => .resp false ⟨none⟩
    entityDataResp := fun _ => .resp false ⟨none⟩ }

/-- An upstream whose entity data carries a population quantity claim with
amount `"+0.3"`: a finite value strictly between 0 and 1/2. -/
def envQuantitySmall : Env :=
  { searchResp := fun _ => .thrown
    summaryResp := fun _ => .thrown
    qidByPageIdResp := fun _ => .thrown
    qidByTitleResp := fun _ => .thrown
    wdSearchResp := fun _ => .thrown
    entityDataResp := fun _ => .resp true
      ⟨some [("Q1", ⟨some [("P1082", [⟨some ⟨some ⟨some (.quantity (some "+0.3"))⟩⟩⟩])]⟩)]⟩ }

/-! ## Basic lemmas about the numeric pipeline -/

/-- `Math.round` of a positive decimal is nonnegative. -/
theorem jsRound_nonneg (a : JSNum) (h : a.isPos = true) : 0 ≤ jsRound a := by
  unfold jsRound
  have hnum : 0 < a.num := by simpa [JSNum.isPos] using h
  have hp : (0 : Int) ≤ (10 : Int) ^ a.den10 := pow_nonneg (by norm_num) _
  exact Int.fdiv_nonneg (by linarith) (by linarith)

/-- Every value the pattern-loop body returns passed the `n > 0` guard. -/
theorem runPattern_pos (re : RE) (cs : List Char) (n : Int)
    (h : runPattern re cs = some n) : 0 < n := by
  simp only [runPattern] at h
  split at h
  · cases h
  split at h
  · cases h
  split at h
  · cases h
  split at h
  · cases h
  split at h
  · rename_i hlt
    cases h
    exact hlt
  · cases h

/-- Every value the pattern loop returns passed the `n > 0` guard. -/
theorem parsePopulationList_pos (ps : List RE) (cs : List Char) (n : Int)
    (h : parsePopulationList ps cs = some n) : 0 < n := by
  induction ps with
  | nil => simp [parsePopulationList] at h
  | cons re res ih =>
    unfold parsePopulationList at h
    cases hr : runPattern re cs with
    | some m => rw [hr] at h; cases h; exact runPattern_pos re cs n hr
    | none => rw [hr] at h; exact ih h

/-- The Numeric Text Extractor only returns positive integers. -/
theorem parsePopulation_pos (text : Option String) (n : Int)
    (h : parsePopulation text = some n) : 0 < n := by
  unfold parsePopulation at h
  cases text with
  | none => cases h
  | some t =>
    by_cases ht : t = "" <;> simp [ht] at h
    exact parsePopulationList_pos _ _ _ h

/-- The extracted population amount, when present, is nonnegative. -/
theorem extractPopulationAmount_nonneg (amount : String) (n : Int)
    (h : extractPopulationAmount amount = some n) : 0 ≤ n := by
  simp only [extractPopulationAmount] at h
  split at h
  · cases h
  split at h
  · rename_i m _ hm
    cases h
    exact jsRound_nonneg m hm
  · cases h

/-- The population field of `fetchFromWikidata` is nonnegative. -/
theorem fetchFromWikidata_pop_nonneg (env : Env) (qid : String)
    (sci : Option String) (pop : Option Int) (n : Int)
    (h : fetchFromWikidata env qid = .ok (sci, pop)) (hp : pop = some n) :
    0 ≤ n := by
  subst hp
  simp only [fetchFromWikidata] at h
  split at h
  · cases h
  split at h
  · injection h with h2
    have h4 := congrArg Prod.snd h2
    dsimp at h4
    split at h4
    · split at h4
      · exact extractPopulationAmount_nonneg _ _ h4
      · cases h4
    · cases h4
  · injection h with h2
    have h4 := congrArg Prod.snd h2
    cases h4

/-! ## Projection lemmas for the finishing phases -/

/-- The scientific-name write leaves the population untouched. -/
theorem setSciPhase_total_population (st : FormState) (log : List Effect)
    (title : String) (sci : Option String) :
    (setSciPhase st log title sci).1.total_population = st.total_population := by
  unfold setSciPhase
  repeat' split
  all_goals rfl

/-- The scientific-name write leaves the common name untouched. -/
theorem setSciPhase_common_name (st : FormState) (log : List Effect)
    (title : String) (sci : Option String) :
    (setSciPhase st log title sci).1.common_name = st.common_name := by
  unfold setSciPhase
  repeat' split
  all_goals rfl

/-- The scientific-name write leaves the description untouched. -/
theorem setSciPhase_description (st : FormState) (log : List Effect)
    (title : String) (sci : Option String) :
    (setSciPhase st log title sci).1.description = st.description := by
  unfold setSciPhase
  repeat' split
  all_goals rfl

/-- The population write leaves the scientific name untouched. -/
theorem setPopPhase_scientific_name (st : FormState) (log : List Effect)
    (p : Option Int) :
    (setPopPhase st log p).1.scientific_name = st.scientific_name := by
  unfold setPopPhase
  repeat' split
  all_goals rfl

/-- The population write leaves the common name untouched. -/
theorem setPopPhase_common_name (st : FormState) (log : List Effect)
    (p : Option Int) :
    (setPopPhase st log p).1.common_name = st.common_name := by
  unfold setPopPhase
  repeat' split
  all_goals rfl

/-- The population write leaves the description untouched. -/
theorem setPopPhase_description (st : FormState) (log : List Effect)
    (p : Option Int) :
    (setPopPhase st log p).1.description = st.description := by
  unfold setPopPhase
  repeat' split
  all_goals rfl

/-! ## Merge precedence and name heuristic (claims C1, C8) -/

/-- Inversion for the nullish-coalescing merge. -/
theorem mergedPop_inv (pw ps : Option Int) (m : Int)
    (h : mergedPop pw ps = some m) : pw = some m ∨ (pw = none ∧ ps = some m) := by
  cases pw with
  | some w => left; simpa [mergedPop] using h
  | none => right; simpa [mergedPop] using h

/-- C1: Merge precedence for population.  When both a structured-knowledge
population and a text-derived population are present, the merged Candidate
population is the structured one; the text-derived value is used only when
the structured one is absent; when both are absent the field stays absent. -/
theorem merged_population_structured_wins (st : FormState) (log : List Effect)
    (title : String) (sci : Option String) :
    (∀ w t : Int, 0 < w →
      (finish st log title sci (some w) (some t)).1.total_population = some w) ∧
    (∀ t : Int, 0 < t →
      (finish st log title sci none (some t)).1.total_population = some t) ∧
    (st.total_population = none →
      (finish st log title sci none none).1.total_population = none) := by
  refine ⟨?_, ?_, ?_⟩
  · intro w t hw
    simp [finish, mergedPop, setPopPhase, show w ≠ 0 by omega]
  · intro t ht
    simp [finish, mergedPop, setPopPhase, show t ≠ 0 by omega]
  · intro hst
    simp [finish, mergedPop, setPopPhase, setSciPhase_total_population, hst]

/-- Witness for C1: structured population 500 beats text-derived 9000. -/
theorem merged_population_structured_wins_witness :
    (finish emptyForm [] "Tiger" none (some 500) (some 9000)).1.total_population = some 500 :=
  (merged_population_structured_wins emptyForm [] "Tiger" none).1 500 9000 (by norm_num)

/-- C8: Binomial-shape heuristic for the scientific name.  Without a
structured name the Candidate's scientific name is the chosen title exactly
when the title has the two-word capitalized-then-lowercase shape (else it
stays absent); a structured name always takes precedence; "Panthera
tigris" matches the shape, "Bengal Tiger" does not. -/
theorem scientific_name_binomial (st : FormState) (log : List Effect) :
    (∀ (title : String) (pw ps : Option Int), st.scientific_name = "" →
      (finish st log title none pw ps).1.scientific_name =
        (if isBinomialTitle title then title else "")) ∧
    (∀ (title s : String) (pw ps : Option Int), s ≠ "" →
      (finish st log title (some s) pw ps).1.scientific_name = s) ∧
    isBinomialTitle "Panthera tigris" = true ∧
    isBinomialTitle "Bengal Tiger" = false := by
  refine ⟨?_, ?_, by decide, by decide⟩
  · intro title pw ps hst
    by_cases hb : isBinomialTitle title
    · simp [finish, setSciPhase, hb, setPopPhase_scientific_name]
    · simp [finish, setSciPhase, hb, setPopPhase_scientific_name, hst]
  · intro title s pw ps hs
    simp [finish, setSciPhase, hs, setPopPhase_scientific_name]

/-- Witness for C8: title "Panthera tigris" with no structured name yields
that title as the scientific name. -/
theorem scientific_name_binomial_witness :
    (finish emptyForm [] "Panthera tigris" none none none).1.scientific_name =
      "Panthera tigris" := by
  have h := (scientific_name_binomial emptyForm []).1 "Panthera tigris" none none rfl
  rw [h, if_pos (by decide : isBinomialTitle "Panthera tigris" = true)]

/-! ## Population positivity (claim C4) -/

/-- C4 (amended): the Numeric Text Extractor result is always a positive
integer; the EntityFacts population is a nonnegative integer (it can be 0,
when the claimed amount parses to a positive value below one half); the
merged Candidate population, when present, is a positive integer. -/
theorem population_positive_invariant :
    (∀ (text : Option String) (n : Int), parsePopulation text = some n → 0 < n) ∧
    (∀ (env : Env) (qid : String) (sci : Option String) (pop : Option Int) (n : Int),
      fetchFromWikidata env qid = .ok (sci, pop) → pop = some n → 0 ≤ n) ∧
    (∀ (st : FormState) (log : List Effect) (title : String) (sci : Option String)
      (pw ps : Option Int) (n : Int),
      st.total_population = none →
      (∀ m : Int, pw = some m → 0 ≤ m) →
      (∀ m : Int, ps = some m → 0 < m) →
      (finish st log title sci pw ps).1.total_population = some n → 0 < n) := by
  refine ⟨parsePopulation_pos, fetchFromWikidata_pop_nonneg, ?_⟩
  intro st log title sci pw ps n hst hpw hps h
  cases hm : mergedPop pw ps with
  | none =>
    rw [show (finish st log title sci pw ps).1 = (setPopPhase (setSciPhase st log title sci).1
      (setSciPhase st log title sci).2 (mergedPop pw ps)).1 from rfl, hm] at h
    simp [setPopPhase, setSciPhase_total_population, hst] at h
  | some m =>
    rw [show (finish st log title sci pw ps).1 = (setPopPhase (setSciPhase st log title sci).1
      (setSciPhase st log title sci).2 (mergedPop pw ps)).1 from rfl, hm] at h
    by_cases hm0 : m = 0
    · subst hm0
      simp [setPopPhase, setSciPhase_total_population, hst] at h
    · simp [setPopPhase, hm0] at h
      subst h
      rcases mergedPop_inv pw ps m hm with hw | ⟨-, hp⟩
      · have := hpw m hw; omega
      · exact hps m hp

/-- Witness for C4: the extractor value 3200 is positive. -/
theorem population_positive_invariant_witness : (0 : Int) < 3200 :=
  population_positive_invariant.1 (some "population of about 3,200 individuals") 3200 (by decide)

/-- C4 counterexample: the structured amount "+0.3" is finite and positive,
so the code accepts it, and `Math.round(0.3)` makes the EntityFacts
population 0 — present but not positive, against the stated invariant. -/
theorem entity_population_zero_cex :
    fetchFromWikidata envQuantitySmall "Q1" = .ok (none, some 0) ∧ ¬ (0 < (0 : Int)) :=
  ⟨by decide, by decide⟩

/-! ## Amount-string plus stripping (claim C7) -/

/-- A list without a plus sign is unchanged by `removeFirstPlus`. -/
theorem removeFirstPlus_id (l : List Char) (h : l.all (fun c => c != '+') = true) :
    removeFirstPlus l = l := by
  induction l with
  | nil => rfl
  | cons c r ih =>
    simp only [List.all_cons, Bool.and_eq_true, bne_iff_ne] at h
    unfold removeFirstPlus
    rw [if_neg h.1, ih h.2]

/-- C7 counterexample: `replace("+", "")` removes the first plus sign
anywhere, not only a leading one: on amount "1+2" the code extracts 12,
while the claim's leading-strip reading extracts 1. -/
theorem plus_removed_anywhere_cex :
    extractPopulationAmount "1+2" = some 12 ∧
    extractPopulationAmountSpec "1+2" = some 1 ∧
    ((12 : Int) ≠ 1) :=
  ⟨by decide, by decide, by decide⟩

/-- C7 (amended): the first `+` (wherever it occurs) is removed before
parsing; on amounts whose only plus sign is leading this agrees with
stripping the leading `+`; "+12000" extracts to 12000, "-5" and "0" to an
absent population. -/
theorem amount_extraction_values :
    extractPopulationAmount "+12000" = some 12000 ∧
    extractPopulationAmount "-5" = none ∧
    extractPopulationAmount "0" = none ∧
    (∀ a : String, (stripLeadingPlus a.data).all (fun c => c != '+') = true →
      extractPopulationAmount a = extractPopulationAmountSpec a) := by
  refine ⟨by decide, by decide, by decide, ?_⟩
  intro a ha
  have heq : removeFirstPlus a.data = stripLeadingPlus a.data := by
    cases hd : a.data with
    | nil => rfl
    | cons c r =>
      by_cases hc : c = '+'
      · subst hc; rfl
      · rw [hd] at ha
        rw [show stripLeadingPlus (c :: r) = c :: r by
          unfold stripLeadingPlus
          split
          · rename_i heq2; exact absurd (List.cons.injEq .. ▸ heq2) (by simp [hc])
          · rfl] at ha
        rw [show stripLeadingPlus (c :: r) = c :: r by
          unfold stripLeadingPlus
          split
          · rename_i heq2; exact absurd (List.cons.injEq .. ▸ heq2) (by simp [hc])
          · rfl]
        exact removeFirstPlus_id _ ha
  unfold extractPopulationAmount extractPopulationAmountSpec
  rw [heq]

/-- Witness for C7: on the well-formed amount "+500" the code's extraction
agrees with the leading-strip reading. -/
theorem amount_extraction_values_witness :
    extractPopulationAmount "+500" = extractPopulationAmountSpec "+500" :=
  amount_extraction_values.2.2.2 "+500" (by decide)

/-! ## Pattern order in the Numeric Text Extractor (claim C2) -/

/-- C2 counterexample: on a text both patterns match with different
numbers, the result is the generic pattern's number (500), not the
"estimated population" pattern's number (900): in the source the generic
pattern is tried first. -/
theorem pattern_order_cex :
    runPattern pattern1 (lowerAscii "individuals 500 estimated population 900".data) = some 500 ∧
    runPattern pattern2 (lowerAscii "individuals 500 estimated population 900".data) = some 900 ∧
    parsePopulation (some "individuals 500 estimated population 900") = some 500 ∧
    ((500 : Int) ≠ 900) :=
  ⟨by decide, by decide, by decide, by decide⟩

/-- C2 (amended): patterns are tried in order and the first match wins,
but the generic "population/individuals/remaining" pattern is tried
before the explicit "estimated population" pattern; hence when both would
match with different numbers, the result is the generic pattern's number,
and the explicit pattern is consulted only when the generic one yields
nothing. -/
theorem pattern_order_generic_first :
    patterns = [pattern1, pattern2] ∧
    (∀ (t : String) (n : Int), runPattern pattern1 (lowerAscii t.data) = some n →
      parsePopulation (some t) = some n) ∧
    (∀ t : String, runPattern pattern1 (lowerAscii t.data) = none →
      parsePopulation (some t) = runPattern pattern2 (lowerAscii t.data)) := by
  refine ⟨rfl, ?_, ?_⟩
  · intro t n h
    by_cases ht : t = ""
    · subst ht
      rw [show lowerAscii "".data = [] from rfl] at h
      rw [show runPattern pattern1 [] = none from by decide] at h
      cases h
    · simp [parsePopulation, ht, patterns, parsePopulationList, h]
  · intro t h
    by_cases ht : t = ""
    · subst ht
      rw [show runPattern pattern2 (lowerAscii "".data) = none from by decide]
      simp [parsePopulation]
    · simp only [parsePopulation, ht, if_neg ht, patterns, parsePopulationList, h]
      cases runPattern pattern2 (lowerAscii t.data) <;> rfl

/-- Witness for C2: the generic pattern's match is the extractor's result. -/
theorem pattern_order_generic_first_witness :
    parsePopulation (some "individuals 700") = some 700 :=
  pattern_order_generic_first.2.1 "individuals 700" 700 (by decide)

/-- The summary-picking loop only appends to the effect trace. -/
theorem pickSummary_log (env : Env) (rs : List WikipediaSearchResult) :
    ∀ log, ∃ d, (pickSummary env rs log).log = log ++ d := by
  induction rs with
  | nil => intro log; exact ⟨[], by simp [pickSummary, Step.log]⟩
  | cons r rs ih =>
    intro log
    unfold pickSummary
    split
    · exact ⟨[.netSummary r.title], rfl⟩
    · split
      · split
        · obtain ⟨d, hd⟩ := ih (log ++ [.netSummary r.title])
          exact ⟨[.netSummary r.title] ++ d, by rw [hd, List.append_assoc]⟩
        · exact ⟨[.netSummary r.title], rfl⟩
      · obtain ⟨d, hd⟩ := ih (log ++ [.netSummary r.title])
        exact ⟨[.netSummary r.title] ++ d, by rw [hd, List.append_assoc]⟩

/-- A chain step only appends to the effect trace. -/
theorem chainStep_log (s : Step (Option String)) (eff : Effect)
    (call : Except Unit (Option String)) :
    ∃ d, (chainStep s eff call).log = s.log ++ d := by
  unfold chainStep
  cases s with
  | thrown log => exact ⟨[], by simp [Step.log]⟩
  | ok qid log =>
    by_cases hq : qidTruthy qid = true
    · exact ⟨[], by simp [hq, Step.log]⟩
    · cases call with
      | error e => exact ⟨[eff], by simp [hq, Step.log]⟩
      | ok q2 => exact ⟨[eff], by simp [hq, Step.log]⟩

/-- The chain's first step only appends to the effect trace. -/
theorem qidStart_log (env : Env) (pid : Option Nat) (log : List Effect) :
    ∃ d, (qidStart env pid log).log = log ++ d := by
  cases pid with
  | none => exact ⟨[], by simp [qidStart, Step.log]⟩
  | some p =>
    cases h : wikidataQidByPageId env p with
    | error e => exact ⟨[.netQidByPageId p], by simp [qidStart, h, Step.log]⟩
    | ok r => exact ⟨[.netQidByPageId p], by simp [qidStart, h, Step.log]⟩

/-- The qid chain only appends to the effect trace. -/
theorem qidChain_log (env : Env) (pid : Option Nat) (title q : String)
    (log : List Effect) : ∃ d, (qidChain env pid title q log).log = log ++ d := by
  unfold qidChain
  obtain ⟨d0, h0⟩ := qidStart_log env pid log
  obtain ⟨d1, h1⟩ := chainStep_log (qidStart env pid log)
    (.netQidByTitle title) (wikidataQidByTitle env title)
  obtain ⟨d2, h2⟩ := chainStep_log (chainStep (qidStart env pid log)
    (.netQidByTitle title) (wikidataQidByTitle env title))
    (.netWdSearch title) (searchWikidataQid env title)
  obtain ⟨d3, h3⟩ := chainStep_log (chainStep (chainStep (qidStart env pid log)
    (.netQidByTitle title) (wikidataQidByTitle env title))
    (.netWdSearch title) (searchWikidataQid env title))
    (.netWdSearch q) (searchWikidataQid env q)
  exact ⟨d0 ++ d1 ++ d2 ++ d3, by rw [h3, h2, h1, h0]; simp [List.append_assoc]⟩

/-- The description write only appends to the effect trace. -/
theorem setDescriptionPhase_log (st : FormState) (log : List Effect)
    (summary : WikipediaSummaryResponse) :
    ∃ d, (setDescriptionPhase st log summary).2 = log ++ d := by
  simp only [setDescriptionPhase]
  split
  · exact ⟨_, rfl⟩
  · exact ⟨[], by simp⟩

/-- The image write only appends to the effect trace. -/
theorem setImagePhase_log (st : FormState) (log : List Effect)
    (summary : WikipediaSummaryResponse) :
    ∃ d, (setImagePhase st log summary).2 = log ++ d := by
  simp only [setImagePhase]
  split
  · exact ⟨_, rfl⟩
  · exact ⟨[], by simp⟩

/-- The common-name write only appends to the effect trace. -/
theorem setCommonPhase_log (st : FormState) (log : List Effect) (title : String) :
    ∃ d, (setCommonPhase st log title).2 = log ++ d := by
  unfold setCommonPhase
  split
  · exact ⟨_, rfl⟩
  · exact ⟨[], by simp⟩

/-- The summary-derived writes only append to the effect trace. -/
theorem writeSummaryFields_log (st : FormState) (log : List Effect)
    (title : String) (summary : WikipediaSummaryResponse) :
    ∃ d, (writeSummaryFields st log title summary).2 = log ++ d := by
  unfold writeSummaryFields
  obtain ⟨d1, h1⟩ := setDescriptionPhase_log st log summary
  obtain ⟨d2, h2⟩ := setImagePhase_log (setDescriptionPhase st log summary).1
    (setDescriptionPhase st log summary).2 summary
  obtain ⟨d3, h3⟩ := setCommonPhase_log
    (setImagePhase (setDescriptionPhase st log summary).1
      (setDescriptionPhase st log summary).2 summary).1
    (setImagePhase (setDescriptionPhase st log summary).1
      (setDescriptionPhase st log summary).2 summary).2 title
  exact ⟨d1 ++ d2 ++ d3, by rw [h3, h2, h1]; simp [List.append_assoc]⟩

/-- The scientific-name write only appends to the effect trace. -/
theorem setSciPhase_log (st : FormState) (log : List Effect) (title : String)
    (sci : Option String) : ∃ d, (setSciPhase st log title sci).2 = log ++ d := by
  unfold setSciPhase
  repeat' split
  all_goals first
    | exact ⟨_, rfl⟩
    | exact ⟨[], by simp⟩

/-- The population write only appends to the effect trace. -/
theorem setPopPhase_log (st : FormState) (log : List Effect) (p : Option Int) :
    ∃ d, (setPopPhase st log p).2 = log ++ d := by
  unfold setPopPhase
  repeat' split
  all_goals first
    | exact ⟨_, rfl⟩
    | exact ⟨[], by simp⟩

/-- The finishing phase only appends to the effect trace. -/
theorem finish_log (st : FormState) (log : List Effect) (title : String)
    (sci : Option String) (pw ps : Option Int) :
    ∃ d, (finish st log title sci pw ps).2.1 = log ++ d := by
  simp only [finish]
  obtain ⟨d1, h1⟩ := setSciPhase_log st log title sci
  obtain ⟨d2, h2⟩ := setPopPhase_log (setSciPhase st log title sci).1
    (setSciPhase st log title sci).2 (mergedPop pw ps)
  exact ⟨d1 ++ d2, by rw [h2, h1, List.append_assoc]⟩

/-- Everything after the summary choice only appends to the trace. -/
theorem afterPick_log (env : Env) (q : String) (st : FormState)
    (log : List Effect) (picked : WikipediaSearchResult)
    (summary : WikipediaSummaryResponse) :
    ∃ d, (afterPick env q st log picked summary).2.1 = log ++ d := by
  obtain ⟨dw, hw⟩ := writeSummaryFields_log st log picked.title summary
  obtain ⟨dc, hc⟩ := qidChain_log env picked.pageid picked.title q
    (writeSummaryFields st log picked.title summary).2
  cases hch : qidChain env picked.pageid picked.title q
      (writeSummaryFields st log picked.title summary).2 with
  | thrown log2 =>
    rw [hch] at hc; simp only [Step.log] at hc
    exact ⟨dw ++ dc, by
      simp only [afterPick, hch]
      rw [hc, hw]; simp [List.append_assoc]⟩
  | ok qid log2 =>
    rw [hch] at hc; simp only [Step.log] at hc
    have hl2 : log2 = log ++ (dw ++ dc) := by rw [hc, hw, List.append_assoc]
    cases qid with
    | none =>
      obtain ⟨df, hf⟩ := finish_log (writeSummaryFields st log picked.title summary).1
        log2 picked.title none none (parsePopulation summary.extract)
      exact ⟨dw ++ dc ++ df, by
        simp only [afterPick, hch]
        rw [hf, hl2]; simp [List.append_assoc]⟩
    | some qv =>
      by_cases hqv : qv = ""
      · subst hqv
        obtain ⟨df, hf⟩ := finish_log (writeSummaryFields st log picked.title summary).1
          log2 picked.title none none (parsePopulation summary.extract)
        refine ⟨dw ++ dc ++ df, ?_⟩
        simp only [afterPick, hch]
        rw [if_neg (by simp)]
        rw [hf, hl2]
        simp [List.append_assoc]
      · cases hfw : fetchFromWikidata env qv with
        | error e =>
          refine ⟨dw ++ dc ++ [.netEntityData qv], ?_⟩
          simp only [afterPick, hch]
          rw [if_pos hqv]
          simp only [hfw]
          rw [hl2]
          simp [List.append_assoc]
        | ok scipop =>
          obtain ⟨sci, pop⟩ := scipop
          obtain ⟨df, hf⟩ := finish_log (writeSummaryFields st log picked.title summary).1
            (log2 ++ [.netEntityData qv]) picked.title sci pop (parsePopulation summary.extract)
          refine ⟨dw ++ dc ++ [.netEntityData qv] ++ df, ?_⟩
          simp only [afterPick, hch]
          rw [if_pos hqv]
          simp only [hfw]
          rw [hf, hl2]
          simp [List.append_assoc]

/-- A zero-hit search ends the run right away: reset fields, one search
call, `noArticleFound`. -/
theorem zero_hits_run (env : Env) (q : String) (st0 : FormState)
    (ok : Bool) (body : WikipediaSearchResponse)
    (hq : jsTrim q ≠ "")
    (hresp : env.searchResp (jsTrim q) = .resp ok body)
    (hzero : (body.query.bind WPSearchQuery.search).getD [] = []) :
    handleWikipediaSearch env q st0 =
      (resetFields st0, resetEffects ++ [Effect.netSearch (jsTrim q)], .noArticleFound) := by
  simp only [handleWikipediaSearch, if_neg hq, hresp, hzero]

/-- The run's outcome does not depend on the five result fields of the
prior form state (only `kingdom` is carried through untouched). -/
theorem run_st0_irrelevant (env : Env) (q : String) (st0 st0' : FormState)
    (hq : jsTrim q ≠ "") (hk : st0.kingdom = st0'.kingdom) :
    handleWikipediaSearch env q st0 = handleWikipediaSearch env q st0' := by
  have hr : resetFields st0 = resetFields st0' := by
    cases st0; cases st0'
    simp only [resetFields] at *
    simp_all
  simp only [handleWikipediaSearch, if_neg hq, hr]

/-- Every run (with a nonempty trimmed query) starts its effect trace
with the five field resets followed by the search call. -/
theorem run_log_start (env : Env) (q : String) (st0 : FormState)
    (hq : jsTrim q ≠ "") :
    ∃ rest, (handleWikipediaSearch env q st0).2.1 =
      resetEffects ++ Effect.netSearch (jsTrim q) :: rest := by
  simp only [handleWikipediaSearch, if_neg hq]
  cases hs : env.searchResp (jsTrim q) with
  | thrown => exact ⟨[], by simp⟩
  | resp ok body =>
    simp only [hs]
    cases hr : (body.query.bind WPSearchQuery.search).getD [] with
    | nil => simp only [hr]; exact ⟨[], by simp⟩
    | cons r0 rs =>
      simp only [hr]
      obtain ⟨d, hd⟩ := pickSummary_log env ((r0 :: rs).take 5)
        (resetEffects ++ [Effect.netSearch (jsTrim q)])
      cases hps : pickSummary env ((r0 :: rs).take 5)
          (resetEffects ++ [Effect.netSearch (jsTrim q)]) with
      | thrown log2 =>
        rw [hps] at hd; simp only [Step.log] at hd
        try simp only [hps]
        exact ⟨d, by simp [hd]⟩
      | ok pick log2 =>
        rw [hps] at hd; simp only [Step.log] at hd
        try simp only [hps]
        cases pick with
        | some pk =>
          obtain ⟨picked, summary⟩ := pk
          obtain ⟨d2, hd2⟩ := afterPick_log env (jsTrim q) (resetFields st0) log2 picked summary
          exact ⟨d ++ d2, by rw [hd2, hd]; simp [List.append_assoc]⟩
        | none =>
          cases hsum : env.summaryResp r0.title with
          | thrown =>
            simp only [hsum]
            exact ⟨d ++ [.netSummary r0.title], by rw [hd]; simp [List.append_assoc]⟩
          | resp ok2 s =>
            simp only [hsum]
            by_cases hok2 : ok2 = true
            · rw [if_pos hok2]
              obtain ⟨d2, hd2⟩ := afterPick_log env (jsTrim q) (resetFields st0)
                (log2 ++ [.netSummary r0.title]) r0 s
              exact ⟨d ++ [.netSummary r0.title] ++ d2, by
                rw [hd2, hd]; simp [List.append_assoc]⟩
            · rw [if_neg hok2]
              exact ⟨d ++ [.netSummary r0.title], by rw [hd]; simp [List.append_assoc]⟩

/-- C10: every enrichment run begins by resetting the five result fields
before any network call (the trace starts with the five reset writes and
then the search call); no value of the previous form state survives into
the run's result; a run that fails with zero hits leaves every field
empty. -/
theorem run_resets_first :
    (∀ (env : Env) (q : String) (st0 : FormState), jsTrim q ≠ "" → ∃ rest,
      (handleWikipediaSearch env q st0).2.1 =
        resetEffects ++ Effect.netSearch (jsTrim q) :: rest) ∧
    (∀ (env : Env) (q : String) (st0 st0' : FormState), jsTrim q ≠ "" →
      st0.kingdom = st0'.kingdom →
      handleWikipediaSearch env q st0 = handleWikipediaSearch env q st0') ∧
    (∀ (env : Env) (q : String) (st0 : FormState) (ok : Bool)
      (body : WikipediaSearchResponse), jsTrim q ≠ "" →
      env.searchResp (jsTrim q) = .resp ok body →
      (body.query.bind WPSearchQuery.search).getD [] = [] →
      (handleWikipediaSearch env q st0).1 = resetFields st0 ∧
      (handleWikipediaSearch env q st0).1.scientific_name = "" ∧
      (handleWikipediaSearch env q st0).1.common_name = none ∧
      (handleWikipediaSearch env q st0).1.description = none ∧
      (handleWikipediaSearch env q st0).1.image = none ∧
      (handleWikipediaSearch env q st0).1.total_population = none) := by
  refine ⟨run_log_start, run_st0_irrelevant, ?_⟩
  intro env q st0 ok body hq hresp hzero
  rw [zero_hits_run env q st0 ok body hq hresp hzero]
  simp [resetFields]

/-- Witness for C10: a concrete zero-hit run's trace starts with the
resets. -/
theorem run_resets_first_witness :
    ∃ rest, (handleWikipediaSearch envZeroHits "cheetah" emptyForm).2.1 =
      resetEffects ++ Effect.netSearch (jsTrim "cheetah") :: rest :=
  run_resets_first.1 envZeroHits "cheetah" emptyForm (by decide)

/-- C9: if the search returns zero hits, the run returns total failure
with status `noArticleFound` and an empty Candidate, its trace showing no
summary fetch and no structured-knowledge call after the search call. -/
theorem resolve_zero_hits (env : Env) (q : String) (st0 : FormState)
    (ok : Bool) (body : WikipediaSearchResponse)
    (hq : jsTrim q ≠ "")
    (hresp : env.searchResp (jsTrim q) = .resp ok body)
    (hzero : (body.query.bind WPSearchQuery.search).getD [] = []) :
    handleWikipediaSearch env q st0 =
      (resetFields st0, resetEffects ++ [Effect.netSearch (jsTrim q)], .noArticleFound) :=
  zero_hits_run env q st0 ok body hq hresp hzero

/-- Witness for C9: a concrete zero-hit environment. -/
theorem resolve_zero_hits_witness :
    handleWikipediaSearch envZeroHits "tiger" emptyForm =
      (resetFields emptyForm, resetEffects ++ [Effect.netSearch (jsTrim "tiger")],
        .noArticleFound) :=
  resolve_zero_hits envZeroHits "tiger" emptyForm true ⟨some ⟨some []⟩⟩
    (by decide) rfl rfl

/-! ## Failure absorption and disambiguation fallback (claims C3, C5) -/

/-- A chain step whose call does not throw yields a value. -/
theorem chainStep_ok (qid : Option String) (log : List Effect) (eff : Effect)
    (call : Except Unit (Option String)) (hc : ∀ e : Unit, call ≠ .error e) :
    ∃ q2 d, chainStep (.ok qid log) eff call = .ok q2 (log ++ d) := by
  unfold chainStep
  by_cases hq : qidTruthy qid = true
  · exact ⟨qid, [], by simp [hq]⟩
  · cases call with
    | error e => exact absurd rfl (hc e)
    | ok q2 => exact ⟨q2, [eff], by simp [hq]⟩

/-- The chain's first step yields a value when the lookup does not throw. -/
theorem qidStart_ok (env : Env) (pid : Option Nat) (log : List Effect)
    (h : ∀ p, pid = some p → ∀ e : Unit, wikidataQidByPageId env p ≠ .error e) :
    ∃ r d, qidStart env pid log = .ok r (log ++ d) := by
  cases pid with
  | none => exact ⟨none, [], by simp [qidStart]⟩
  | some p =>
    cases hw : wikidataQidByPageId env p with
    | error e => exact absurd hw (h p rfl e)
    | ok r => exact ⟨r, [.netQidByPageId p], by simp [qidStart, hw]⟩

/-- When no lookup call throws, the whole chain completes with a value
(every failure has been absorbed as null along the way). -/
theorem qidChain_ok (env : Env) (pid : Option Nat) (title q : String)
    (log : List Effect)
    (h0 : ∀ p, pid = some p → ∀ e : Unit, wikidataQidByPageId env p ≠ .error e)
    (h1 : ∀ e : Unit, wikidataQidByTitle env title ≠ .error e)
    (h2 : ∀ e : Unit, searchWikidataQid env title ≠ .error e)
    (h3 : ∀ e : Unit, searchWikidataQid env q ≠ .error e) :
    ∃ r d, qidChain env pid title q log = .ok r (log ++ d) := by
  unfold qidChain
  obtain ⟨r0, d0, e0⟩ := qidStart_ok env pid log h0
  rw [e0]
  obtain ⟨r1, d1, e1⟩ := chainStep_ok r0 (log ++ d0)
    (.netQidByTitle title) (wikidataQidByTitle env title) h1
  rw [e1]
  obtain ⟨r2, d2, e2⟩ := chainStep_ok r1 (log ++ d0 ++ d1)
    (.netWdSearch title) (searchWikidataQid env title) h2
  rw [e2]
  obtain ⟨r3, d3, e3⟩ := chainStep_ok r2 (log ++ d0 ++ d1 ++ d2)
    (.netWdSearch q) (searchWikidataQid env q) h3
  rw [e3]
  exact ⟨r3, d0 ++ d1 ++ d2 ++ d3, by simp [List.append_assoc]⟩

/-- A chain step that finds nothing passes null on. -/
theorem chainStep_none (log : List Effect) (eff : Effect)
    (call : Except Unit (Option String)) (hc : call = .ok none) :
    chainStep (.ok none log) eff call = .ok none (log ++ [eff]) := by
  simp [chainStep, qidTruthy, hc]

/-- When every step of the chain finds nothing, the chain completes with
null rather than an error. -/
theorem qidChain_all_absent (env : Env) (pid : Option Nat) (title q : String)
    (log : List Effect)
    (h0 : ∀ p, pid = some p → wikidataQidByPageId env p = .ok none)
    (h1 : wikidataQidByTitle env title = .ok none)
    (h2 : searchWikidataQid env title = .ok none)
    (h3 : searchWikidataQid env q = .ok none) :
    ∃ d, qidChain env pid title q log = .ok none (log ++ d) := by
  unfold qidChain
  have hs : ∃ d0, qidStart env pid log = .ok none (log ++ d0) := by
    cases pid with
    | none => exact ⟨[], by simp [qidStart]⟩
    | some p => exact ⟨[.netQidByPageId p], by simp [qidStart, h0 p rfl]⟩
  obtain ⟨d0, hs⟩ := hs
  rw [hs, chainStep_none _ _ _ h1, chainStep_none _ _ _ h2, chainStep_none _ _ _ h3]
  exact ⟨d0 ++ [.netQidByTitle title, .netWdSearch title, .netWdSearch q], by simp⟩

/-- The description write leaves the common name untouched. -/
theorem setDescriptionPhase_common (st : FormState) (log : List Effect)
    (summary : WikipediaSummaryResponse) :
    (setDescriptionPhase st log summary).1.common_name = st.common_name := by
  simp only [setDescriptionPhase]
  split <;> rfl

/-- The image write leaves the common name untouched. -/
theorem setImagePhase_common (st : FormState) (log : List Effect)
    (summary : WikipediaSummaryResponse) :
    (setImagePhase st log summary).1.common_name = st.common_name := by
  simp only [setImagePhase]
  split <;> rfl

/-- Effect of the common-name write on the common name. -/
theorem setCommonPhase_common (st : FormState) (log : List Effect) (title : String) :
    (setCommonPhase st log title).1.common_name =
      (if title ≠ "" then some title else st.common_name) := by
  simp only [setCommonPhase]
  split <;> rfl

/-- The summary writes set the common name from a truthy title. -/
theorem writeSummaryFields_common (st : FormState) (log : List Effect)
    (title : String) (summary : WikipediaSummaryResponse) :
    (writeSummaryFields st log title summary).1.common_name =
      (if title ≠ "" then some title else st.common_name) := by
  simp only [writeSummaryFields]
  rw [setCommonPhase_common, setImagePhase_common, setDescriptionPhase_common]

/-- Effect of the description write on the description. -/
theorem setDescriptionPhase_description (st : FormState) (log : List Effect)
    (summary : WikipediaSummaryResponse) :
    (setDescriptionPhase st log summary).1.description =
      (if summary.extract.getD "" ≠ "" then some (summary.extract.getD "")
       else st.description) := by
  simp only [setDescriptionPhase]
  split <;> rfl

/-- The image write leaves the description untouched. -/
theorem setImagePhase_description (st : FormState) (log : List Effect)
    (summary : WikipediaSummaryResponse) :
    (setImagePhase st log summary).1.description = st.description := by
  simp only [setImagePhase]
  split <;> rfl

/-- The common-name write leaves the description untouched. -/
theorem setCommonPhase_description (st : FormState) (log : List Effect) (title : String) :
    (setCommonPhase st log title).1.description = st.description := by
  simp only [setCommonPhase]
  split <;> rfl

/-- The summary writes set the description from a truthy extract. -/
theorem writeSummaryFields_description (st : FormState) (log : List Effect)
    (title : String) (summary : WikipediaSummaryResponse) :
    (writeSummaryFields st log title summary).1.description =
      (if summary.extract.getD "" ≠ "" then some (summary.extract.getD "")
       else st.description) := by
  simp only [writeSummaryFields]
  rw [setCommonPhase_description, setImagePhase_description, setDescriptionPhase_description]

/-- The finishing phase leaves the common name untouched. -/
theorem finish_common (st : FormState) (log : List Effect) (title : String)
    (sci : Option String) (pw ps : Option Int) :
    (finish st log title sci pw ps).1.common_name = st.common_name := by
  simp only [finish]
  rw [setPopPhase_common_name, setSciPhase_common_name]

/-- The finishing phase leaves the description untouched. -/
theorem finish_description (st : FormState) (log : List Effect) (title : String)
    (sci : Option String) (pw ps : Option Int) :
    (finish st log title sci pw ps).1.description = st.description := by
  simp only [finish]
  rw [setPopPhase_description, setSciPhase_description]

/-- The finishing phase always reports success. -/
theorem finish_status (st : FormState) (log : List Effect) (title : String)
    (sci : Option String) (pw ps : Option Int) :
    (finish st log title sci pw ps).2.2 = .success := by
  simp only [finish]

/-- Once a summary is chosen, the run ends in success provided no
structured-knowledge call throws. -/
theorem afterPick_success (env : Env) (q : String) (st : FormState)
    (log : List Effect) (picked : WikipediaSearchResult)
    (summary : WikipediaSummaryResponse)
    (h0 : ∀ p, picked.pageid = some p → ∀ e : Unit, wikidataQidByPageId env p ≠ .error e)
    (h1 : ∀ e : Unit, wikidataQidByTitle env picked.title ≠ .error e)
    (h2 : ∀ e : Unit, searchWikidataQid env picked.title ≠ .error e)
    (h3 : ∀ e : Unit, searchWikidataQid env q ≠ .error e)
    (h4 : ∀ qv (e : Unit), fetchFromWikidata env qv ≠ .error e) :
    (afterPick env q st log picked summary).2.2 = .success := by
  obtain ⟨r, d, hch⟩ := qidChain_ok env picked.pageid picked.title q
    (writeSummaryFields st log picked.title summary).2 h0 h1 h2 h3
  cases r with
  | none => simp only [afterPick, hch]; exact finish_status ..
  | some qv =>
    by_cases hqv : qv = ""
    · subst hqv
      simp only [afterPick, hch]
      rw [if_neg (by simp)]
      exact finish_status ..
    · simp only [afterPick, hch]
      rw [if_pos hqv]
      cases hf : fetchFromWikidata env qv with
      | error e => exact absurd hf (h4 qv e)
      | ok scipop =>
        obtain ⟨sci, pop⟩ := scipop
        simp only [hf]
        exact finish_status ..

/-- The Candidate's common name is the chosen title (when truthy). -/
theorem afterPick_common (env : Env) (q : String) (st : FormState)
    (log : List Effect) (picked : WikipediaSearchResult)
    (summary : WikipediaSummaryResponse) :
    (afterPick env q st log picked summary).1.common_name =
      (if picked.title ≠ "" then some picked.title else st.common_name) := by
  cases hch : qidChain env picked.pageid picked.title q
      (writeSummaryFields st log picked.title summary).2 with
  | thrown log2 =>
    simp only [afterPick, hch]
    exact writeSummaryFields_common ..
  | ok qid log2 =>
    cases qid with
    | none =>
      simp only [afterPick, hch]
      rw [finish_common, writeSummaryFields_common]
    | some qv =>
      by_cases hqv : qv = ""
      · subst hqv
        simp only [afterPick, hch]
        rw [if_neg (by simp), finish_common, writeSummaryFields_common]
      · simp only [afterPick, hch]
        rw [if_pos hqv]
        cases hf : fetchFromWikidata env qv with
        | error e =>
          simp only [hf]
          exact writeSummaryFields_common ..
        | ok scipop =>
          obtain ⟨sci, pop⟩ := scipop
          simp only [hf]
          rw [finish_common, writeSummaryFields_common]

/-- The Candidate's description is the chosen summary's extract (when
truthy). -/
theorem afterPick_description (env : Env) (q : String) (st : FormState)
    (log : List Effect) (picked : WikipediaSearchResult)
    (summary : WikipediaSummaryResponse) :
    (afterPick env q st log picked summary).1.description =
      (if summary.extract.getD "" ≠ "" then some (summary.extract.getD "")
       else st.description) := by
  cases hch : qidChain env picked.pageid picked.title q
      (writeSummaryFields st log picked.title summary).2 with
  | thrown log2 =>
    simp only [afterPick, hch]
    exact writeSummaryFields_description ..
  | ok qid log2 =>
    cases qid with
    | none =>
      simp only [afterPick, hch]
      rw [finish_description, writeSummaryFields_description]
    | some qv =>
      by_cases hqv : qv = ""
      · subst hqv
        simp only [afterPick, hch]
        rw [if_neg (by simp), finish_description, writeSummaryFields_description]
      · simp only [afterPick, hch]
        rw [if_pos hqv]
        cases hf : fetchFromWikidata env qv with
        | error e =>
          simp only [hf]
          exact writeSummaryFields_description ..
        | ok scipop =>
          obtain ⟨sci, pop⟩ := scipop
          simp only [hf]
          rw [finish_description, writeSummaryFields_description]

/-- C3 counterexample: a lookup call that fails with a network error
(thrown fetch) is NOT absorbed: the run's trace stops at the page-id
lookup (the chain does not proceed to the by-title step) and the failure
surfaces to the caller as the generic error status. -/
theorem lookup_throw_propagates_cex :
    (handleWikipediaSearch envThrowQid "foo" emptyForm).2.2 = .searchError ∧
    (handleWikipediaSearch envThrowQid "foo" emptyForm).2.1 =
      resetEffects ++ [.netSearch "foo", .netSummary "Foo", .setCommon (some "Foo"),
        .netQidByPageId 7] ∧
    Effect.netQidByTitle "Foo" ∉ (handleWikipediaSearch envThrowQid "foo" emptyForm).2.1 :=
  ⟨by decide, by decide, by decide⟩

/-- C3 (amended): a lookup call that fails with a non-success response is
absorbed as "found nothing" and the chain proceeds; when no call throws,
the chain always completes; when every step finds nothing the chain
yields null (empty EntityFacts) rather than a failed run.  A thrown
network error, by contrast, aborts the chain (see the counterexample). -/
theorem lookup_failure_absorption :
    (∀ (env : Env) (p : Nat) (b : MWQueryResp),
      env.qidByPageIdResp p = .resp false b → wikidataQidByPageId env p = .ok none) ∧
    (∀ (env : Env) (t : String) (b : MWQueryResp),
      env.qidByTitleResp t = .resp false b → wikidataQidByTitle env t = .ok none) ∧
    (∀ (env : Env) (s : String) (b : WikidataSearchResp),
      env.wdSearchResp s = .resp false b → searchWikidataQid env s = .ok none) ∧
    (∀ (env : Env) (s : String) (b : WikidataResp),
      env.entityDataResp s = .resp false b → fetchFromWikidata env s = .ok (none, none)) ∧
    (∀ (env : Env) (pid : Option Nat) (title q : String) (log : List Effect),
      (∀ p, pid = some p → ∀ e : Unit, wikidataQidByPageId env p ≠ .error e) →
      (∀ e : Unit, wikidataQidByTitle env title ≠ .error e) →
      (∀ e : Unit, searchWikidataQid env title ≠ .error e) →
      (∀ e : Unit, searchWikidataQid env q ≠ .error e) →
      ∃ r d, qidChain env pid title q log = .ok r (log ++ d)) ∧
    (∀ (env : Env) (pid : Option Nat) (title q : String) (log : List Effect),
      (∀ p, pid = some p → wikidataQidByPageId env p = .ok none) →
      wikidataQidByTitle env title = .ok none →
      searchWikidataQid env title = .ok none →
      searchWikidataQid env q = .ok none →
      ∃ d, qidChain env pid title q log = .ok none (log ++ d)) := by
  refine ⟨?_, ?_, ?_, ?_, qidChain_ok, qidChain_all_absent⟩
  · intro env p b h
    simp [wikidataQidByPageId, h]
  · intro env t b h
    simp [wikidataQidByTitle, h]
  · intro env s b h
    simp [searchWikidataQid, h]
  · intro env s b h
    simp [fetchFromWikidata, h]

/-- Witness for C3: a chain over an upstream whose four lookups all
respond non-success completes with null. -/
theorem lookup_failure_absorption_witness :
    ∃ d, qidChain envAbsorb (some 1) "t" "q" [] = .ok none ([] ++ d) :=
  lookup_failure_absorption.2.2.2.2.2 envAbsorb (some 1) "t" "q" []
    (fun _ _ => rfl) rfl rfl rfl

/-- The picking loop rejects every hit when all summaries fetched are
disambiguation pages. -/
theorem pickSummary_all_disambig (env : Env) (rs : List WikipediaSearchResult)
    (h : ∀ r ∈ rs, ∃ s, env.summaryResp r.title = .resp true s ∧
      s.type = some "disambiguation") :
    ∀ log, ∃ d, pickSummary env rs log = .ok none (log ++ d) := by
  induction rs with
  | nil => intro log; exact ⟨[], by simp [pickSummary]⟩
  | cons r rs ih =>
    intro log
    obtain ⟨s, hs, hd⟩ := h r (List.mem_cons_self r rs)
    obtain ⟨d, hrec⟩ := ih (fun r' hr' => h r' (List.mem_cons_of_mem _ hr'))
      (log ++ [.netSummary r.title])
    refine ⟨[.netSummary r.title] ++ d, ?_⟩
    unfold pickSummary
    simp only [hs, hd, if_pos, ite_true, if_true]
    rw [hrec, List.append_assoc]

/-- C5 counterexample: when the top hits yield no usable summary because
every summary fetch returns a non-success response, the fallback refetch
of the first hit also fails and the run returns the summary-unavailable
failure with an empty Candidate — not a Candidate. -/
theorem all_summaries_unavailable_cex :
    (handleWikipediaSearch envNoSummary "tiger" emptyForm).2.2 = .summaryUnavailable ∧
    (handleWikipediaSearch envNoSummary "tiger" emptyForm).2.2 ≠ .success ∧
    (handleWikipediaSearch envNoSummary "tiger" emptyForm).1 = resetFields emptyForm :=
  ⟨by decide, by decide, by decide⟩

/-- C5 (amended): when the top-5 summaries are all fetched successfully
but are disambiguation pages, the resolver falls back to the very first
hit's summary regardless of its type and still returns a Candidate
derived from it (success status, common name from the first hit's title,
description from its summary), provided the structured-knowledge phase
does not throw; if no usable summary can be fetched at all, the run
instead fails with the summary-unavailable status. -/
theorem all_disambiguation_fallback (env : Env) (q : String) (st0 : FormState)
    (okf : Bool) (body : WikipediaSearchResponse) (r0 : WikipediaSearchResult)
    (rs : List WikipediaSearchResult) (s0 : WikipediaSummaryResponse)
    (hq : jsTrim q ≠ "")
    (hsr : env.searchResp (jsTrim q) = .resp okf body)
    (hres : (body.query.bind WPSearchQuery.search).getD [] = r0 :: rs)
    (hall : ∀ r ∈ (r0 :: rs).take 5, ∃ s, env.summaryResp r.title = .resp true s ∧
      s.type = some "disambiguation")
    (hs0 : env.summaryResp r0.title = .resp true s0)
    (h0 : ∀ p, r0.pageid = some p → ∀ e : Unit, wikidataQidByPageId env p ≠ .error e)
    (h1 : ∀ e : Unit, wikidataQidByTitle env r0.title ≠ .error e)
    (h2 : ∀ e : Unit, searchWikidataQid env r0.title ≠ .error e)
    (h3 : ∀ e : Unit, searchWikidataQid env (jsTrim q) ≠ .error e)
    (h4 : ∀ qv (e : Unit), fetchFromWikidata env qv ≠ .error e) :
    (handleWikipediaSearch env q st0).2.2 = .success ∧
    (handleWikipediaSearch env q st0).1.common_name =
      (if r0.title ≠ "" then some r0.title else none) ∧
    (handleWikipediaSearch env q st0).1.description =
      (if s0.extract.getD "" ≠ "" then some (s0.extract.getD "") else none) := by
  obtain ⟨d, hpick⟩ := pickSummary_all_disambig env ((r0 :: rs).take 5) hall
    (resetEffects ++ [Effect.netSearch (jsTrim q)])
  have hrun : handleWikipediaSearch env q st0 =
      afterPick env (jsTrim q) (resetFields st0)
        ((resetEffects ++ [Effect.netSearch (jsTrim q)]) ++ d ++ [.netSummary r0.title])
        r0 s0 := by
    simp only [handleWikipediaSearch, if_neg hq, hsr, hres, hpick, hs0, if_true]
  rw [hrun]
  refine ⟨afterPick_success env (jsTrim q) (resetFields st0) _ r0 s0 h0 h1 h2 h3 h4, ?_, ?_⟩
  · rw [afterPick_common]
    simp [resetFields]
  · rw [afterPick_description]
    simp [resetFields]

/-- Witness for C5: a concrete all-disambiguation upstream yields a
successful Candidate. -/
theorem all_disambiguation_fallback_witness :
    (handleWikipediaSearch envAllDisambig "alpha" emptyForm).2.2 = .success :=
  (all_disambiguation_fallback envAllDisambig "alpha" emptyForm true
    ⟨some ⟨some [⟨"Alpha beta", some 1⟩, ⟨"B", none⟩]⟩⟩ ⟨"Alpha beta", some 1⟩
    [⟨"B", none⟩]
    ⟨some "t", some "a list page", some ⟨"http://x/i.png"⟩, some "disambiguation"⟩
    (by decide) rfl rfl
    (fun r _ => ⟨⟨some "t", some "a list page", some ⟨"http://x/i.png"⟩,
      some "disambiguation"⟩, rfl, rfl⟩)
    rfl
    (fun p _ e h => by cases h)
    (fun e h => by cases h)
    (fun e h => by cases h)
    (fun e h => by cases h)
    (fun qv e h => by cases h)).1

/-! ## Extractor reference values (claim C6) -/

/-- A literal match leaves a suffix of the input. -/
theorem stripPrefixCh_suffix (s : List Char) :
    ∀ cs rest, stripPrefixCh s cs = some rest → rest <:+ cs := by
  induction s with
  | nil =>
    intro cs rest h
    simp [stripPrefixCh] at h
    subst h
    exact List.suffix_refl _
  | cons p ps ih =>
    intro cs rest h
    cases cs with
    | nil => cases h
    | cons c cs' =>
      simp only [stripPrefixCh] at h
      split at h
      · exact (ih cs' rest h).trans (List.suffix_cons c cs')
      · cases h

/-- A successful repetition consumed some prefix of the input. -/
theorem tryCounts_sound (cs : List Char) (caps : Caps)
    (k : List Char → Caps → Option Caps) :
    ∀ ns res, tryCounts cs caps k ns = some res →
    ∃ n, k (cs.drop n) caps = some res := by
  intro ns
  induction ns with
  | nil => intro res h; cases h
  | cons n ns ih =>
    intro res h
    unfold tryCounts at h
    cases hk : k (cs.drop n) caps with
    | some r => rw [hk] at h; cases h; exact ⟨n, hk⟩
    | none =>
      rw [hk] at h
      exact ih res h

/-- Soundness of the matcher: a successful match consumes a prefix of the
input, and every capture it adds consists of characters of the input. -/
theorem mre_sound (r : RE) :
    ∀ (cs : List Char) (caps : Caps) (k : List Char → Caps → Option Caps)
      (res : Caps), mre r cs caps k = some res →
    ∃ rest caps2, rest <:+ cs ∧
      (∀ pr ∈ caps2, pr ∈ caps ∨ ∀ c ∈ pr.2, c ∈ cs) ∧
      k rest caps2 = some res := by
  induction r with
  | str s =>
    intro cs caps k res h
    simp only [mre] at h
    cases hsp : stripPrefixCh s cs with
    | none => rw [hsp] at h; cases h
    | some rest =>
      rw [hsp] at h
      exact ⟨rest, caps, stripPrefixCh_suffix s cs rest hsp,
        fun pr hpr => Or.inl hpr, h⟩
  | cls p lo hi lzy =>
    intro cs caps k res h
    simp only [mre] at h
    obtain ⟨n, hk⟩ := tryCounts_sound cs caps k _ res h
    exact ⟨cs.drop n, caps, List.drop_suffix n cs, fun pr hpr => Or.inl hpr, hk⟩
  | alt2 r1 r2 ih1 ih2 =>
    intro cs caps k res h
    simp only [mre] at h
    cases h1 : mre r1 cs caps k with
    | some r => rw [h1] at h; cases h; exact ih1 cs caps k res h1
    | none => rw [h1] at h; exact ih2 cs caps k res h
  | opt r ih =>
    intro cs caps k res h
    simp only [mre] at h
    cases h1 : mre r cs caps k with
    | some r2 => rw [h1] at h; cases h; exact ih cs caps k res h1
    | none =>
      rw [h1] at h
      exact ⟨cs, caps, List.suffix_refl cs, fun pr hpr => Or.inl hpr, h⟩
  | grp i r ih =>
    intro cs caps k res h
    simp only [mre] at h
    obtain ⟨rest, caps2, hs, hcap, hk⟩ := ih cs caps _ res h
    refine ⟨rest, (i, cs.take (cs.length - rest.length)) :: caps2, hs, ?_, hk⟩
    intro pr hpr
    rcases List.mem_cons.mp hpr with hpr | hpr
    · subst hpr
      exact Or.inr fun c hc => List.take_subset _ _ hc
    · exact hcap pr hpr
  | cat r1 r2 ih1 ih2 =>
    intro cs caps k res h
    simp only [mre] at h
    obtain ⟨rest1, caps1, hs1, hcap1, hk1⟩ := ih1 cs caps _ res h
    obtain ⟨rest2, caps2, hs2, hcap2, hk2⟩ := ih2 rest1 caps1 k res hk1
    refine ⟨rest2, caps2, hs2.trans hs1, ?_, hk2⟩
    intro pr hpr
    rcases hcap2 pr hpr with hpr2 | hpr2
    · rcases hcap1 pr hpr2 with hpr3 | hpr3
      · exact Or.inl hpr3
      · exact Or.inr hpr3
    · exact Or.inr fun c hc => hs1.subset (hpr2 c hc)
  | eps =>
    intro cs caps k res h
    simp only [mre] at h
    exact ⟨cs, caps, List.suffix_refl cs, fun pr hpr => Or.inl hpr, h⟩

/-- Every character of every capture of a match comes from the subject
text. -/
theorem reFirstMatch_chars (r : RE) :
    ∀ cs caps, reFirstMatch r cs = some caps →
    ∀ pr ∈ caps, ∀ c ∈ pr.2, c ∈ cs := by
  intro cs
  induction cs with
  | nil =>
    intro caps h pr hpr c hc
    obtain ⟨rest, caps2, _, hcap, hk⟩ := mre_sound r [] [] _ caps h
    cases hk
    rcases hcap pr hpr with hin | hchars
    · exact absurd hin (List.not_mem_nil pr)
    · exact hchars c hc
  | cons c0 cs' ih =>
    intro caps h pr hpr c hc
    unfold reFirstMatch at h
    cases hm : mre r (c0 :: cs') [] (fun _ caps => some caps) with
    | some caps' =>
      rw [hm] at h
      cases h
      obtain ⟨rest, caps2, _, hcap, hk⟩ := mre_sound r (c0 :: cs') [] _ _ hm
      cases hk
      rcases hcap pr hpr with hin | hchars
      · exact absurd hin (List.not_mem_nil pr)
      · exact hchars c hc
    | none =>
      rw [hm] at h
      exact List.mem_cons_of_mem c0 (ih caps h pr hpr c hc)

/-- A looked-up capture is one of the recorded captures. -/
theorem lookupCap_mem (caps : Caps) (i : Nat) :
    ∀ l, lookupCap caps i = some l → (i, l) ∈ caps := by
  induction caps with
  | nil => intro l h; cases h
  | cons p rest ih =>
    intro l h
    obtain ⟨j, l2⟩ := p
    simp only [lookupCap] at h
    split at h
    · cases h
      rename_i hj
      subst hj
      exact List.mem_cons_self ..
    · exact List.mem_cons_of_mem _ (ih l h)

/-- `takeWhile` of a predicate failing everywhere is empty. -/
theorem takeWhile_eq_nil_of_none (p : Char → Bool) (l : List Char)
    (h : ∀ c ∈ l, p c = false) : l.takeWhile p = [] := by
  cases l with
  | nil => rfl
  | cons c r => simp [List.takeWhile_cons, h c (List.mem_cons_self ..)]

/-- ASCII lowercasing does not create or destroy digits. -/
theorem isDigitCh_lowerCh (c : Char) : isDigitCh (lowerCh c) = isDigitCh c := by
  unfold lowerCh
  split <;> rfl

/-- Stripping a sign keeps a subset of the characters. -/
theorem jsSignStrip_subset (l : List Char) : jsSignStrip l ⊆ l := by
  unfold jsSignStrip
  split
  · exact fun c hc => List.mem_cons_of_mem _ hc
  · exact fun c hc => List.mem_cons_of_mem _ hc
  · exact fun c hc => hc

/-- `parseFloat` of a digit-free string is `NaN`. -/
theorem jsParseFloat_none_of_no_digit (ds : List Char)
    (h : ∀ c ∈ ds, isDigitCh c = false) : jsParseFloat ds = none := by
  have hcs : ∀ c ∈ jsSignStrip (ds.dropWhile isSpaceJS), isDigitCh c = false :=
    fun c hc => h c ((List.dropWhile_sublist isSpaceJS).subset (jsSignStrip_subset _ hc))
  have hip : (jsSignStrip (ds.dropWhile isSpaceJS)).takeWhile isDigitCh = [] :=
    takeWhile_eq_nil_of_none _ _ hcs
  have hfp : jsFracPart ((jsSignStrip (ds.dropWhile isSpaceJS)).dropWhile isDigitCh) = [] := by
    have hcs2 : ∀ c ∈ (jsSignStrip (ds.dropWhile isSpaceJS)).dropWhile isDigitCh,
        isDigitCh c = false :=
      fun c hc => hcs c ((List.dropWhile_sublist isDigitCh).subset hc)
    unfold jsFracPart
    split
    · rename_i r heq
      refine takeWhile_eq_nil_of_none _ _ fun c hc => ?_
      exact hcs2 c (heq ▸ List.mem_cons_of_mem _ hc)
    · rfl
  simp only [jsParseFloat, hip, hfp]
  split
  · rfl
  · rfl

/-- On a digit-free text no pattern can produce a value: any captured
number string is drawn from the text, so it parses to `NaN`. -/
theorem runPattern_none_of_no_digit (re : RE) (cs : List Char)
    (h : ∀ c ∈ cs, isDigitCh c = false) : runPattern re cs = none := by
  simp only [runPattern]
  split
  · rfl
  · rename_i caps hm
    split
    · rfl
    · rename_i g1 hg
      split
      · rfl
      · have hnd : ∀ c ∈ List.filter (fun c => decide (c ≠ ',')) g1, isDigitCh c = false := by
          intro c hc
          have hcg : c ∈ g1 := List.mem_of_mem_filter hc
          exact h c (reFirstMatch_chars re cs caps hm (1, g1)
            (lookupCap_mem caps 1 g1 hg) c hcg)
        rw [jsParseFloat_none_of_no_digit _ hnd]

/-- The Numeric Text Extractor returns `null` on digit-free text. -/
theorem parsePopulation_none_of_no_digit (t : String)
    (h : ∀ c ∈ t.data, isDigitCh c = false) : parsePopulation (some t) = none := by
  have hl : ∀ c ∈ lowerAscii t.data, isDigitCh c = false := by
    intro c hc
    obtain ⟨c0, hc0, rfl⟩ := List.mem_map.mp hc
    rw [isDigitCh_lowerCh]
    exact h c0 hc0
  by_cases ht : t = ""
  · simp [parsePopulation, ht]
  · simp [parsePopulation, ht, patterns, parsePopulationList,
      runPattern_none_of_no_digit pattern1 _ hl,
      runPattern_none_of_no_digit pattern2 _ hl]

/-- C6 counterexample: an input that CONTAINS "population of about 3,200
individuals" but whose earlier text already matches the generic pattern
returns that earlier number (500), not 3200 — the claim's "for every input
text containing …" quantification fails on the code. -/
theorem extractor_contained_phrase_cex :
    (∃ pre post : List Char,
      "individuals 500 population of about 3,200 individuals".data =
        pre ++ "population of about 3,200 individuals".data ++ post) ∧
    parsePopulation (some "individuals 500 population of about 3,200 individuals") =
      some 500 ∧
    ((500 : Int) ≠ 3200) :=
  ⟨⟨"individuals 500 ".data, [], by decide⟩, by decide, by decide⟩

/-- C6 (amended): on the input "population of about 3,200 individuals"
the extractor returns 3200; on "estimated population 1.5 million" it
returns 1500000 (unit suffix times 1e6, rounded); on any input with no
recognizable number (no digit character) it returns null.  The reference
values hold for the phrase as the input (or any input whose leftmost
pattern match is that phrase), not for every input merely containing the
phrase. -/
theorem extractor_reference_values :
    parsePopulation (some "population of about 3,200 individuals") = some 3200 ∧
    parsePopulation (some "estimated population 1.5 million") = some 1500000 ∧
    (∀ t : String, (∀ c ∈ t.data, isDigitCh c = false) →
      parsePopulation (some t) = none) :=
  ⟨by decide, by decide, parsePopulation_none_of_no_digit⟩

/-- Witness for C6: a digit-free input maps to null. -/
theorem extractor_reference_values_witness :
    parsePopulation (some "zebra herd") = none :=
  extractor_reference_values.2.2 "zebra herd" (by decide)
